import Mathlib

/-!
Shallow embedding of the rendimiento-descomposición (decomposition-yield)
aggregation pipeline of this repository:

  * `app/services/rendimiento_descomposicion_service.py`
  * `app/clients/rendimiento_descomposicion_client.py`

together with theorems settling the specification claims about it.

Modelling conventions:
  * Python floats are modelled as exact rationals (`ℚ`), Python ints as `ℤ`.
    The only irrational value produced by the code is the sample standard
    deviation (`math.sqrt`), modelled in `ℝ` via `Real.sqrt`.
  * `round(x, n)` is CPython round-half-to-even, modelled exactly on the
    value level (`py_round`, `py_round_r`).
  * JSON objects are structures whose absent keys are `none`; `dict.get`
    with an `or` default is `Option.getD` guarded by Python truthiness.
  * Fallible code returns `Option`/`Except`: an uncaught Python exception
    that aborts the whole request is `none`/`.error`, a caught one follows
    the `except` branch of the source.
-/

namespace Teco

/-- Python truthiness of an optional string (`None` and `""` are falsy). -/
def truthyS : Option String → Bool
  | none => false
  | some s => s != ""

/-- Python truthiness of an optional int (`None` and `0` are falsy). -/
def truthyI : Option ℤ → Bool
  | none => false
  | some i => i != 0

/-- Round-half-to-even of a rational to an integer: the value-level content
of CPython `round`. -/
def round_half_even (x : ℚ) : ℤ :=
  if Int.fract x < 1/2 then ⌊x⌋
  else if 1/2 < Int.fract x then ⌊x⌋ + 1
  else if ⌊x⌋ % 2 = 0 then ⌊x⌋ else ⌊x⌋ + 1

/-- Python `round(x, n)` on exact rational values. -/
def py_round (n : ℕ) (x : ℚ) : ℚ := (round_half_even (x * 10 ^ n) : ℚ) / 10 ^ n

/-- Round-half-to-even on `ℝ` (used only where the source rounds the result
of `math.sqrt`). -/
noncomputable def round_half_even_r (x : ℝ) : ℤ :=
  if Int.fract x < 1/2 then ⌊x⌋
  else if 1/2 < Int.fract x then ⌊x⌋ + 1
  else if ⌊x⌋ % 2 = 0 then ⌊x⌋ else ⌊x⌋ + 1

/-- Python `round(x, n)` on `ℝ`. -/
noncomputable def py_round_r (n : ℕ) (x : ℝ) : ℝ := (round_half_even_r (x * 10 ^ n) : ℝ) / 10 ^ n

theorem round_half_even_r_zero : round_half_even_r 0 = 0 := by
  simp [round_half_even_r, Int.fract]

theorem py_round_r_zero (n : ℕ) : py_round_r n 0 = 0 := by
  simp [py_round_r, round_half_even_r_zero]

/-!  ### Dates

The service manipulates `datetime.date` values (chunking loop) and formats
them with `strftime`; `_bucket_key` needs the ISO calendar.  Dates are
modelled as `(year, month, day)` triples and, for arithmetic, as day
numbers (days since 1970-01-01, Hinnant's civil-days algorithm).  All
divisions below act on non-negative operands (years are ≥ 1), so the
rounding convention of `Int` division is irrelevant. -/

def is_leap (y : ℤ) : Bool := (y % 4 == 0 && y % 100 != 0) || y % 400 == 0

def days_in_month (y m : ℤ) : ℤ :=
  if m = 2 then (if is_leap y then 29 else 28)
  else if m = 4 ∨ m = 6 ∨ m = 9 ∨ m = 11 then 30 else 31

/-- Day number of a civil date (days since 1970-01-01). -/
def days_from_civil (y m d : ℤ) : ℤ :=
  let y' := if m ≤ 2 then y - 1 else y
  let era := (if 0 ≤ y' then y' else y' - 399) / 400
  let yoe := y' - era * 400
  let mp := if 2 < m then m - 3 else m + 9
  let doy := (153 * mp + 2) / 5 + d - 1
  let doe := yoe * 365 + yoe / 4 - yoe / 100 + doy
  era * 146097 + doe - 719468

/-- Civil date of a day number (inverse of `days_from_civil`). -/
def civil_from_days (z0 : ℤ) : ℤ × ℤ × ℤ :=
  let z := z0 + 719468
  let era := (if 0 ≤ z then z else z - 146096) / 146097
  let doe := z - era * 146097
  let yoe := (doe - doe / 1460 + doe / 36524 - doe / 146096) / 365
  let y := yoe + era * 400
  let doy := doe - (365 * yoe + yoe / 4 - yoe / 100)
  let mp := (5 * doy + 2) / 153
  let d := doy - (153 * mp + 2) / 5 + 1
  let m := if mp < 10 then mp + 3 else mp - 9
  (if m ≤ 2 then y + 1 else y, m, d)

/-- ISO weekday, Monday = 1 … Sunday = 7 (1970-01-01 was a Thursday). -/
def iso_weekday (y m d : ℤ) : ℤ := (days_from_civil y m d + 3) % 7 + 1

/-- Number of ISO weeks in year `y` (52 or 53). -/
def iso_week_count (y : ℤ) : ℤ :=
  let p := fun (yy : ℤ) => (yy + yy / 4 - yy / 100 + yy / 400) % 7
  if p y = 4 ∨ p (y - 1) = 3 then 53 else 52

/-- `date.isocalendar()`: the ISO (year, week) of a civil date. -/
def iso_year_week (y m d : ℤ) : ℤ × ℤ :=
  let ordinal := days_from_civil y m d - days_from_civil y 1 1 + 1
  let w := (ordinal - iso_weekday y m d + 10) / 7
  if w < 1 then (y - 1, iso_week_count (y - 1))
  else if iso_week_count y < w then (y + 1, 1)
  else (y, w)

def pad2 (n : ℤ) : String := if 0 ≤ n ∧ n < 10 then "0" ++ toString n else toString n

/-- `strftime("%Y-%m-%d")` (glibc does not zero-pad `%Y`). -/
def fmt_date (y m d : ℤ) : String := toString y ++ "-" ++ pad2 m ++ "-" ++ pad2 d

/-- `strftime("%Y-%m")`. -/
def fmt_date_ym (y m : ℤ) : String := toString y ++ "-" ++ pad2 m

/-- `strftime("%Y-%m-%d")` of a day number. -/
def fmt_days (z : ℤ) : String :=
  let c := civil_from_days z
  fmt_date c.1 c.2.1 c.2.2

def digits_to_nat (l : List Char) : Option ℕ :=
  if l ≠ [] ∧ l.all (·.isDigit)
  then some (l.foldl (fun a c => a * 10 + (c.toNat - 48)) 0)
  else none

/-- Split a character list on `'-'` (the separator structure `strptime`
matches against `"%Y-%m-%d"`). -/
def split_dash : List Char → List (List Char)
  | [] => [[]]
  | c :: rest =>
    if c = '-' then [] :: split_dash rest
    else
      match split_dash rest with
      | [] => [[c]]
      | w :: ws => (c :: w) :: ws

/-- `datetime.strptime(s, "%Y-%m-%d")`, as a date: 1–4 digit year ≥ 1,
1–2 digit month/day, calendar-validated, whole string consumed.  CPython
accepts non-zero-padded components, hence the length ranges. -/
def parse_date_chars (l : List Char) : Option (ℤ × ℤ × ℤ) :=
  match split_dash l with
  | [ys, ms, ds] =>
    match digits_to_nat ys, digits_to_nat ms, digits_to_nat ds with
    | some y, some m, some d =>
      if ys.length ≤ 4 ∧ ms.length ≤ 2 ∧ ds.length ≤ 2 ∧
         1 ≤ y ∧ 1 ≤ m ∧ m ≤ 12 ∧ 1 ≤ d ∧ (d : ℤ) ≤ days_in_month y m
      then some ((y : ℤ), (m : ℤ), (d : ℤ))
      else none
    | _, _, _ => none
  | _ => none

/-- `_parse_yyyy_mm_dd(s)` (`datetime.strptime(s, "%Y-%m-%d").date()`). -/
def parse_date (s : String) : Option (ℤ × ℤ × ℤ) := parse_date_chars s.toList

/-- `_bucket_key(dt_iso, granularidad)`.  Every `strptime` branch of the
source that succeeds yields the date written in the first 10 characters of
a zero-padded ISO timestamp, and the final fallback parses `dt_iso[:10]`
directly, so the date is modelled as `parse_date` of those characters.
(CPython's first three formats additionally accept some non-zero-padded
timestamps, which the upstream API never produces.)  `none` models the
`ValueError` escaping `_bucket_key`, which aborts the whole request. -/
def bucket_key (dt_iso : String) (granularidad : String) : Option String :=
  (parse_date_chars (dt_iso.toList.take 10)).map fun c =>
    let y := c.1; let m := c.2.1; let d := c.2.2
    if granularidad = "DIA" then fmt_date y m d
    else if granularidad = "SEMANA" then
      let iw := iso_year_week y m d
      toString iw.1 ++ "-W" ++ pad2 iw.2
    else fmt_date_ym y m

/-!  ### Data model: movement detail payloads

JSON objects from the upstream movement-detail endpoint; absent keys are
`none`.  Quantities are floats (modelled as `ℚ`), ids are ints. -/

structure Product where
  id : Option ℤ := none
  name : Option String := none
  measure : Option String := none
  type : Option String := none
deriving DecidableEq

structure ChildLine where
  operation : Option String := none
  category : Option String := none
  product : Option Product := none
  quantity : Option ℚ := none
deriving DecidableEq

structure Detail where
  id : ℤ
  quantity : Option ℚ := none
  product : Option Product := none
  createdAt : Option String := none
  childs : List ChildLine := []
deriving DecidableEq

/-- One entry of `manuf_by_product` (a `defaultdict` value). -/
structure MAcc where
  name : String := ""
  measure : Option String := none
  qty : ℚ := 0
deriving DecidableEq

/-- Python-dict-style in-place update of an insertion-ordered association
list; first access creates the entry from the `defaultdict` default. -/
def upd_assoc {κ α : Type} [DecidableEq κ] (dflt : α) (l : List (κ × α)) (k : κ)
    (f : α → α) : List (κ × α) :=
  match l with
  | [] => [(k, f dflt)]
  | (k', v) :: rest =>
    if k' = k then (k', f v) :: rest else (k', v) :: upd_assoc dflt rest k f

def lookup_assoc {κ α : Type} [DecidableEq κ] (l : List (κ × α)) (k : κ) : Option α :=
  match l with
  | [] => none
  | (k', v) :: rest => if k' = k then some v else lookup_assoc rest k

/-- `product_filter and pid not in product_filter`: does the (truthy)
product filter exclude this child?  An empty list is falsy and never
filters. -/
def filter_skips (pf : Option (List ℤ)) (pid : Option ℤ) : Bool :=
  match pf with
  | none => false
  | some l =>
    !l.isEmpty && !(match pid with | some p => l.contains p | none => false)

/-- State of the child-classification loop in `_compute_kpis_from_detail`.
`err` models the `TypeError` raised by `int(pid)` when a manufactured child
that passes the filter has no product id; the exception freezes the loop
and is caught by the caller, which drops the movement. -/
structure ChildState where
  manuf_total : ℚ := 0
  waste_total : ℚ := 0
  manuf_by_product : List (ℤ × MAcc) := []
  err : Bool := false
deriving DecidableEq

/-- `op == "ENTRY" and cat == "DESCOMPOSITION" and ptype == "MANUFACTURED"`. -/
def is_manuf_child (ch : ChildLine) : Bool :=
  ch.operation == some "ENTRY" && ch.category == some "DESCOMPOSITION" &&
    (ch.product.getD {}).type == some "MANUFACTURED"

/-- `op == "ENTRY" and (ptype == "WASTE" or cat == "WASTE")`. -/
def is_waste_child (ch : ChildLine) : Bool :=
  ch.operation == some "ENTRY" &&
    ((ch.product.getD {}).type == some "WASTE" || ch.category == some "WASTE")

def child_step (pf : Option (List ℤ)) (s : ChildState) (ch : ChildLine) : ChildState :=
  if s.err then s else
  let prod := ch.product.getD {}
  let qty := ch.quantity.getD 0
  if is_manuf_child ch then
    if filter_skips pf prod.id then s
    else
      match prod.id with
      | none => { s with manuf_total := s.manuf_total + qty, err := true }
      | some pid =>
        { s with
          manuf_total := s.manuf_total + qty,
          manuf_by_product := upd_assoc {} s.manuf_by_product pid
            (fun d => { name := prod.name.getD ""
                      , measure := prod.measure
                      , qty := d.qty + qty }) }
  else if is_waste_child ch then
    { s with waste_total := s.waste_total + qty }
  else s

/-- Spec-side reading of the allow-list restriction: a child passes unless
a non-empty allow-list is given and its product id is not in it (`none`
and the empty list mean "no filter"; cf. claim C10). -/
def allow_pass (pf : Option (List ℤ)) (pid : Option ℤ) : Bool :=
  match pf with
  | none => true
  | some [] => true
  | some l => match pid with
              | some p => l.contains p
              | none => false

/-- Spec-side manufactured total: sum of the quantities of the child lines
that are ENTRY/DESCOMPOSITION/MANUFACTURED and pass the allow-list. -/
def manuf_total_spec (pf : Option (List ℤ)) (childs : List ChildLine) : ℚ :=
  ((childs.filter (fun ch => is_manuf_child ch &&
      allow_pass pf (ch.product.getD {}).id)).map (fun ch => ch.quantity.getD 0)).sum

/-- Spec-side waste total: sum of the quantities of the child lines that
are ENTRY and WASTE (by product type or category); never filtered. -/
def merma_total_spec (childs : List ChildLine) : ℚ :=
  ((childs.filter is_waste_child).map (fun ch => ch.quantity.getD 0)).sum

/-- The single quote character (for Python `repr` of strings). -/
def sq : String := String.singleton (Char.ofNat 39)

/-- Python `repr` of an optional string, as it appears inside the f-string
`hijos={[v['measure'] for v in ...]}` (unit names need no escaping). -/
def py_repr_opt_str (o : Option String) : String :=
  match o with
  | none => "None"
  | some s => sq ++ s ++ sq

def py_repr_measure_list (l : List (Option String)) : String :=
  "[" ++ String.intercalate ", " (l.map py_repr_opt_str) ++ "]"

/-- f-string interpolation of an optional string (`f"{None}"` is `"None"`). -/
def py_str_opt (o : Option String) : String := o.getD "None"

/-- The warning `_compute_kpis_from_detail` appends on a unit mismatch. -/
def unit_warning (movement_id : ℤ) (parent_measure : Option String)
    (hijos : List (Option String)) : String :=
  "Unidades distintas en movementId=" ++ toString movement_id ++
    ": padre=" ++ py_str_opt parent_measure ++
    ", hijos=" ++ py_repr_measure_list hijos

/-- Per-movement KPI row returned by `_compute_kpis_from_detail`. -/
structure Kpi where
  movementId : ℤ
  fecha : String
  padre_productId : Option ℤ
  padre_productName : String
  padre_measure : Option String
  padre_usado : ℚ
  manufacturados_total : ℚ
  merma_total : ℚ
  rendimiento_porcentaje : Option ℚ
  createdAt : String
  manuf_by_product : List (ℤ × MAcc)
deriving DecidableEq

/-- `parent_measure and all(v["measure"] == parent_measure for v in
manuf_by_product.values() if v["qty"] > 0)` — note the `qty > 0` filter. -/
def units_ok (pm : Option String) (vals : List MAcc) : Bool :=
  truthyS pm && vals.all (fun v => !decide (0 < v.qty) || decide (v.measure = pm))

/-- `any(v["measure"] and parent_measure and v["measure"] != parent_measure
for v in manuf_by_product.values())` — no quantity filter here. -/
def mismatch_warn (pm : Option String) (vals : List MAcc) : Bool :=
  vals.any (fun v => truthyS v.measure && truthyS pm && decide (v.measure ≠ pm))

/-- `_compute_kpis_from_detail(detail, product_filter, warnings)`: the KPI
row plus the warnings the call appends to the shared list, or `none` when
the call raises (caught by `_fetch_detail`, which drops the movement). -/
def compute_kpis_from_detail (detail : Detail) (product_filter : Option (List ℤ)) :
    Option (Kpi × List String) :=
  let parent_qty := |detail.quantity.getD 0|
  let parent_product := detail.product.getD {}
  let parent_measure := parent_product.measure
  let created_at := detail.createdAt.getD ""
  let s := detail.childs.foldl (child_step product_filter) {}
  if s.err then none else
  let vals := s.manuf_by_product.map (·.2)
  let rendimiento : Option ℚ :=
    if units_ok parent_measure vals then
      (if 0 < parent_qty then some ((s.manuf_total / parent_qty) * 100) else none)
    else none
  let warns : List String :=
    if !units_ok parent_measure vals && mismatch_warn parent_measure vals
    then [unit_warning detail.id parent_measure (vals.map (·.measure))]
    else []
  some ({ movementId := detail.id
        , fecha := String.mk (created_at.toList.take 10)
        , padre_productId := parent_product.id
        , padre_productName := parent_product.name.getD ""
        , padre_measure := parent_measure
        , padre_usado := parent_qty
        , manufacturados_total := s.manuf_total
        , merma_total := s.waste_total
        , rendimiento_porcentaje := rendimiento.map (py_round 2)
        , createdAt := created_at
        , manuf_by_product := s.manuf_by_product }, warns)

/-- Sample variance with the unbiased `n-1` divisor (n ≥ 2 intended). -/
def sample_variance (values : List ℚ) : ℚ :=
  (values.map (fun v => (v - values.sum / (values.length : ℚ)) ^ 2)).sum /
    ((values.length : ℚ) - 1)

/-- `_stats(values)`: rounded mean/min/max and sample standard deviation
(`n-1` divisor; defined as 0 for a single sample; `None` for no samples). -/
noncomputable def stats_of (values : List ℚ) :
    Option ℚ × Option ℚ × Option ℚ × Option ℝ :=
  match values with
  | [] => (none, none, none, none)
  | x :: xs =>
    let prom : ℚ := (x :: xs).sum / ((x :: xs).length : ℚ)
    let minv : ℚ := xs.foldl min x
    let maxv : ℚ := xs.foldl max x
    let std : ℝ :=
      if 1 < (x :: xs).length then Real.sqrt ((sample_variance (x :: xs) : ℚ) : ℝ)
      else 0
    (some (py_round 2 prom), some (py_round 2 minv), some (py_round 2 maxv),
     some (py_round_r 2 std))

/-!  ### Area-name normalization and candidate matching
(`rendimiento_descomposicion_client.py`)

`_norm` is `unicodedata.normalize("NFKD", s)` → drop combining marks →
`" ".join(s.lower().split())`.  The NFKD table below covers the Latin-1
letters occurring in area names (every other character is NFKD-normal and
maps to itself), and lowercasing covers ASCII and Latin-1. -/

def is_combining (c : Char) : Bool := 0x300 ≤ c.toNat && c.toNat ≤ 0x36F

def nfkd_char (c : Char) : List Char :=
  match c.toNat with
  | 0xE0 => ['a', Char.ofNat 0x300] | 0xE1 => ['a', Char.ofNat 0x301]
  | 0xE2 => ['a', Char.ofNat 0x302] | 0xE3 => ['a', Char.ofNat 0x303]
  | 0xE4 => ['a', Char.ofNat 0x308] | 0xE5 => ['a', Char.ofNat 0x30A]
  | 0xE7 => ['c', Char.ofNat 0x327]
  | 0xE8 => ['e', Char.ofNat 0x300] | 0xE9 => ['e', Char.ofNat 0x301]
  | 0xEA => ['e', Char.ofNat 0x302] | 0xEB => ['e', Char.ofNat 0x308]
  | 0xEC => ['i', Char.ofNat 0x300] | 0xED => ['i', Char.ofNat 0x301]
  | 0xEE => ['i', Char.ofNat 0x302] | 0xEF => ['i', Char.ofNat 0x308]
  | 0xF1 => ['n', Char.ofNat 0x303]
  | 0xF2 => ['o', Char.ofNat 0x300] | 0xF3 => ['o', Char.ofNat 0x301]
  | 0xF4 => ['o', Char.ofNat 0x302] | 0xF5 => ['o', Char.ofNat 0x303]
  | 0xF6 => ['o', Char.ofNat 0x308]
  | 0xF9 => ['u', Char.ofNat 0x300] | 0xFA => ['u', Char.ofNat 0x301]
  | 0xFB => ['u', Char.ofNat 0x302] | 0xFC => ['u', Char.ofNat 0x308]
  | 0xFD => ['y', Char.ofNat 0x301] | 0xFF => ['y', Char.ofNat 0x308]
  | 0xC0 => ['A', Char.ofNat 0x300] | 0xC1 => ['A', Char.ofNat 0x301]
  | 0xC2 => ['A', Char.ofNat 0x302] | 0xC3 => ['A', Char.ofNat 0x303]
  | 0xC4 => ['A', Char.ofNat 0x308] | 0xC5 => ['A', Char.ofNat 0x30A]
  | 0xC7 => ['C', Char.ofNat 0x327]
  | 0xC8 => ['E', Char.ofNat 0x300] | 0xC9 => ['E', Char.ofNat 0x301]
  | 0xCA => ['E', Char.ofNat 0x302] | 0xCB => ['E', Char.ofNat 0x308]
  | 0xCC => ['I', Char.ofNat 0x300] | 0xCD => ['I', Char.ofNat 0x301]
  | 0xCE => ['I', Char.ofNat 0x302] | 0xCF => ['I', Char.ofNat 0x308]
  | 0xD1 => ['N', Char.ofNat 0x303]
  | 0xD2 => ['O', Char.ofNat 0x300] | 0xD3 => ['O', Char.ofNat 0x301]
  | 0xD4 => ['O', Char.ofNat 0x302] | 0xD5 => ['O', Char.ofNat 0x303]
  | 0xD6 => ['O', Char.ofNat 0x308]
  | 0xD9 => ['U', Char.ofNat 0x300] | 0xDA => ['U', Char.ofNat 0x301]
  | 0xDB => ['U', Char.ofNat 0x302] | 0xDC => ['U', Char.ofNat 0x308]
  | 0xDD => ['Y', Char.ofNat 0x301]
  | _ => [c]

/-- `str.lower()` on ASCII and Latin-1 letters. -/
def py_lower_char (c : Char) : Char :=
  let n := c.toNat
  if 0x41 ≤ n ∧ n ≤ 0x5A then Char.ofNat (n + 32)
  else if 0xC0 ≤ n ∧ n ≤ 0xDE ∧ n ≠ 0xD7 then Char.ofNat (n + 32)
  else c

/-- `str.upper()` on ASCII letters (the granularity enum is ASCII). -/
def py_upper_char (c : Char) : Char :=
  let n := c.toNat
  if 0x61 ≤ n ∧ n ≤ 0x7A then Char.ofNat (n - 32) else c

def py_upper (s : String) : String := String.mk (s.toList.map py_upper_char)

/-- The whitespace `str.split()` splits on. -/
def is_py_space (c : Char) : Bool :=
  c == ' ' || c == '\t' || c == '\n' || c == '\r' || c.toNat == 0xB || c.toNat == 0xC

def split_ws_aux : List Char → List Char → List (List Char)
  | [], acc => if acc.isEmpty then [] else [acc.reverse]
  | c :: rest, acc =>
    if is_py_space c then
      (if acc.isEmpty then split_ws_aux rest [] else acc.reverse :: split_ws_aux rest [])
    else split_ws_aux rest (c :: acc)

/-- `s.split()`: split on whitespace runs, dropping empty words. -/
def split_ws (l : List Char) : List (List Char) := split_ws_aux l []

/-- `_norm(s)` for a present string, as a character list. -/
def norm_chars (s : List Char) : List Char :=
  let base := ((s.flatMap nfkd_char).filter (fun c => !is_combining c)).map py_lower_char
  List.intercalate [' '] (split_ws base)

def norm_text (s : String) : List Char := norm_chars s.toList

/-- `_norm(a.get("name"))`: `None` (and `""`) normalize to the empty
string via the falsy guard at the top of `_norm`. -/
def norm_opt (o : Option String) : List Char :=
  match o with
  | none => []
  | some s => norm_text s

/-- An area row as the client reshapes it (`{"id": ..., "name": ...}`).
Upstream always numbers its areas, so `id` is an `ℤ` (a row with a missing
id would crash the service on `int(...)` before anything claimed here). -/
structure AreaRec where
  id : ℤ
  name : Option String := none
deriving DecidableEq

/-- A `{"id": ..., "name": ...}` match returned by `find_area_candidates`. -/
structure CandMatch where
  id : ℤ
  name : Option String := none
deriving DecidableEq

/-- A `{"id": ..., "label": ...}` candidate/option row. -/
structure CandOption where
  id : ℤ
  label : Option String := none
deriving DecidableEq

/-- The dedup-by-id pass over `starts ++ contains` (a `seen` id set,
prefix matches first, insertion order preserved). -/
def dedup_ranked : List (ℤ × Option String) → List ℤ → List CandOption
  | [], _ => []
  | (i, nm) :: rest, seen =>
    if seen.contains i then dedup_ranked rest seen
    else ⟨i, nm⟩ :: dedup_ranked rest (i :: seen)

/-- The areas whose normalized name equals the normalized query. -/
def exact_matches (areas : List AreaRec) (area_name : String) : List AreaRec :=
  areas.filter (fun a => norm_opt a.name = norm_text area_name)

/-- The areas whose normalized name starts with the normalized query. -/
def starts_matches (areas : List AreaRec) (area_name : String) : List AreaRec :=
  areas.filter (fun a => (norm_text area_name).isPrefixOf (norm_opt a.name))

/-- The areas whose normalized name contains the (truthy) normalized query. -/
def contains_matches (areas : List AreaRec) (area_name : String) : List AreaRec :=
  areas.filter (fun a =>
    !(norm_text area_name).isEmpty && decide (norm_text area_name <:+: norm_opt a.name))

/-- The ranked candidate list: prefix matches, then substring matches,
deduplicated by id keeping the first occurrence. -/
def ranked_of (areas : List AreaRec) (area_name : String) : List CandOption :=
  dedup_ranked ((starts_matches areas area_name ++ contains_matches areas area_name).map
    (fun a => (a.id, a.name))) []

/-- `find_area_candidates(area_name)`: `(match, candidates)`. -/
def find_area_candidates (areas : List AreaRec) (area_name : String) :
    Option CandMatch × List CandOption :=
  match exact_matches areas area_name with
  | [a] => (some ⟨a.id, a.name⟩, [])
  | [] =>
    match ranked_of areas area_name with
    | [only] => (some ⟨only.id, only.label⟩, [])
    | [] => (none, [])
    | ranked => (none, ranked)
  | exact => (none, exact.map (fun a => ⟨a.id, a.name⟩))

/-- The `"ask"` payload (`status`/`intent`/`missing` are constants in the
source and carried verbatim). -/
structure AskPayload where
  status : String := "ask"
  intent : String := "rendimiento_descomposicion"
  prompt : String
  missing : List String := ["area_id o area_nombre"]
  options : List CandOption
deriving DecidableEq

inductive AreaResolution where
  | resolved (area_id : ℤ) (area_name : Option String)
  | ask (payload : AskPayload)
deriving DecidableEq

def msg_area_not_found (nombre : String) : String :=
  "Área " ++ sq ++ nombre ++ sq ++ " no encontrada"

def msg_missing_area : String :=
  "Debes enviar " ++ sq ++ "area_id" ++ sq ++ " o " ++ sq ++ "area_nombre" ++ sq

def prompt_ambiguous (nombre : String) : String :=
  "Tu búsqueda coincide con varias áreas parecidas a " ++ sq ++ nombre ++ sq ++
    ". Elige una:"

def prompt_choose_area : String :=
  "¿Sobre qué área quieres calcular el rendimiento de descomposición?"

/-- `_resolve_area_or_ask`: `(resolved id/name | ask payload)` or an
`HTTPException(status, detail)`. -/
def resolve_area_or_ask (areas : List AreaRec) (area_id : Option ℤ)
    (area_nombre : Option String) (modo_asistente : Bool) :
    Except (ℤ × String) AreaResolution :=
  if truthyI area_id then
    let i := area_id.getD 0
    let nm := (areas.find? (fun a => a.id = i)).bind
      (fun a => if truthyS a.name then a.name else none)
    .ok (.resolved i nm)
  else if truthyS area_nombre then
    let nombre := area_nombre.getD ""
    match find_area_candidates areas nombre with
    | (some m, _) => .ok (.resolved m.id m.name)
    | (none, []) => .error (400, msg_area_not_found nombre)
    | (none, cands) =>
      .ok (.ask { prompt := prompt_ambiguous nombre, options := cands.take 10 })
  else if modo_asistente then
    .ok (.ask { prompt := prompt_choose_area
              , options := (areas.map (fun a => ({ id := a.id, label := a.name } : CandOption))).take 15 })
  else .error (400, msg_missing_area)

/-!  ### Streaming aggregation (service step 2–3)

The `as_completed` loop appends to shared accumulators; completion order
is nondeterministic, so the fold below processes one arbitrary
interleaving (every claim proved over it is quantified over all detail
sequences, hence over all completion orders). -/

structure SVals where
  usado : ℚ := 0
  manuf : ℚ := 0
  merma : ℚ := 0
deriving DecidableEq

structure PAgg where
  name : String := ""
  measure : Option String := none
  mov : ℕ := 0
  usado : ℚ := 0
  manuf : ℚ := 0
  merma : ℚ := 0
  rend_list : List ℚ := []
deriving DecidableEq

/-- A raw per-movement row of `movimientos_kpi` (the nested `padre` dict
is flattened into `padre_*` fields). -/
structure MovRow where
  movementId : ℤ
  fecha : String
  padre_productId : Option ℤ
  padre_productName : String
  padre_measure : Option String
  padre_usado : ℚ
  manufacturados_total : ℚ
  merma_total : ℚ
  rendimiento_porcentaje : Option ℚ
deriving DecidableEq

structure AggState where
  total_usado : ℚ := 0
  total_manuf : ℚ := 0
  total_merma : ℚ := 0
  series_aggr : List (String × SVals) := []
  prod_aggr : List (ℤ × PAgg) := []
  movimientos_kpi : List MovRow := []
  warnings : List String := []
deriving DecidableEq

def mov_row (kpi : Kpi) : MovRow :=
  { movementId := kpi.movementId
  , fecha := kpi.fecha
  , padre_productId := kpi.padre_productId
  , padre_productName := kpi.padre_productName
  , padre_measure := kpi.padre_measure
  , padre_usado := kpi.padre_usado
  , manufacturados_total := py_round 4 kpi.manufacturados_total
  , merma_total := py_round 4 kpi.merma_total
  , rendimiento_porcentaje := kpi.rendimiento_porcentaje }

/-- The series-bucket accumulation for one KPI. -/
def upd_serie (kpi : Kpi) (v : SVals) : SVals :=
  { usado := v.usado + kpi.padre_usado
  , manuf := v.manuf + kpi.manufacturados_total
  , merma := v.merma + kpi.merma_total }

/-- The per-product accumulation for one breakdown entry of one KPI
(`pa["mov"] += 1`, full `usado`/`merma` attribution, conditional
name/measure overwrite, `rend_list` append when the yield is defined). -/
def upd_prod (kpi : Kpi) (info : MAcc) (pa : PAgg) : PAgg :=
  { name := if info.name ≠ "" then info.name else pa.name
  , measure := if truthyS info.measure then info.measure else pa.measure
  , mov := pa.mov + 1
  , usado := pa.usado + kpi.padre_usado
  , manuf := pa.manuf + info.qty
  , merma := pa.merma + kpi.merma_total
  , rend_list := pa.rend_list ++
      (match kpi.rendimiento_porcentaje with
       | some r => [r]
       | none => []) }

def upd_prod_entry (kpi : Kpi) (acc : List (ℤ × PAgg)) (pi : ℤ × MAcc) :
    List (ℤ × PAgg) :=
  upd_assoc {} acc pi.1 (upd_prod kpi pi.2)

/-- The body of the `as_completed` loop for one successfully fetched KPI:
global totals, time series, per-product aggregation, and (optionally) the
raw row.  `none` = the `ValueError` from `_bucket_key` (uncaught: it
aborts the whole request).  The per-product `for` loop only mutates
`prod_aggr`, written here as a fold over the breakdown entries. -/
def process_kpi (granularidad : String) (incluir_movs : Bool) (s : AggState)
    (kpi : Kpi) : Option AggState :=
  let s1 := { s with total_usado := s.total_usado + kpi.padre_usado
                   , total_manuf := s.total_manuf + kpi.manufacturados_total
                   , total_merma := s.total_merma + kpi.merma_total }
  match bucket_key (if kpi.createdAt ≠ "" then kpi.createdAt
                    else kpi.fecha ++ "T00:00:00") granularidad with
  | none => none
  | some b =>
    let s2 := { s1 with series_aggr := upd_assoc {} s1.series_aggr b (upd_serie kpi) }
    let s3 := { s2 with
      prod_aggr := kpi.manuf_by_product.foldl (upd_prod_entry kpi) s2.prod_aggr }
    some (if incluir_movs
          then { s3 with movimientos_kpi := s3.movimientos_kpi ++ [mov_row kpi] }
          else s3)

/-- `str(e)` for the `TypeError` raised by `int(None)`. -/
def py_type_error_msg : String :=
  "int() argument must be a string, a bytes-like object or a real number, not " ++
    sq ++ "NoneType" ++ sq

def fetch_error_warning (mid : ℤ) (e : String) : String :=
  "Error al obtener detalle movementId=" ++ toString mid ++ ": " ++ e

/-- Process one movement detail (the `_fetch_detail` + loop body pair) in
the detail-list view of the stream (`mid = detail["id"]`). -/
def step_detail (granularidad : String) (incluir_movs : Bool)
    (pf : Option (List ℤ)) (s : AggState) (d : Detail) : Option AggState :=
  match compute_kpis_from_detail d pf with
  | none =>
    some { s with warnings := s.warnings ++ [fetch_error_warning d.id py_type_error_msg] }
  | some (kpi, ws) =>
    process_kpi granularidad incluir_movs { s with warnings := s.warnings ++ ws } kpi

/-- Aggregate a stream of movement details (one interleaving of the
concurrent fetches). -/
def run_agg (granularidad : String) (incluir_movs : Bool) (pf : Option (List ℤ))
    (details : List Detail) : Option AggState :=
  details.foldlM (step_detail granularidad incluir_movs pf) {}

/-!  ### Date chunking (service step 3)

`while cur <= ff: chunk_end = min(cur + timedelta(days=chunk_days-1), ff);
…; cur = chunk_end + 1`, on day numbers.  The loop is partial: fuel-indexed,
with `none` for fuel exhaustion; `chunk_terminates` says some fuel
suffices. -/

def chunk_windows : ℕ → ℤ → ℤ → ℤ → Option (List (ℤ × ℤ))
  | 0, cur, ff, _ => if cur ≤ ff then none else some []
  | n + 1, cur, ff, cd =>
    if cur ≤ ff then
      let chunk_end := min (cur + (cd - 1)) ff
      (chunk_windows n (chunk_end + 1) ff cd).map (fun ws => (cur, chunk_end) :: ws)
    else some []

/-- The chunking loop terminates on these arguments. -/
def chunk_terminates (fi ff cd : ℤ) : Prop :=
  ∃ n, (chunk_windows n fi ff cd).isSome

/-!  ### The request body, upstream environment, and the full service -/

/-- A JSON scalar as it may appear in `product_ids`. -/
inductive PyVal where
  | int (z : ℤ)
  | str (s : String)
deriving DecidableEq

def parse_int_chars (l : List Char) : Option ℤ :=
  match l with
  | '-' :: rest => (digits_to_nat rest).map (fun n => -(n : ℤ))
  | '+' :: rest => (digits_to_nat rest).map (fun n => (n : ℤ))
  | _ => (digits_to_nat l).map (fun n => (n : ℤ))

/-- `int(x)` on a JSON scalar (ints pass, strings must spell an integer). -/
def py_to_int : PyVal → Option ℤ
  | .int z => some z
  | .str s => parse_int_chars s.toList

def msg_falta_usuario : String := "Falta " ++ sq ++ "usuario" ++ sq

def msg_no_autenticado : String := "Usuario no autenticado"

def msg_product_ids : String :=
  sq ++ "product_ids" ++ sq ++ " debe ser una lista de enteros"

/-- `product_filter = body.get("product_ids") or None`, then
`[int(x) for x in product_filter]` under `try/except → HTTPException(400)`.
An empty list is falsy, so it degrades to "no filter". -/
def parse_product_filter (o : Option (List PyVal)) : Except Unit (Option (List ℤ)) :=
  match o with
  | none => .ok none
  | some [] => .ok none
  | some l =>
    match l.mapM py_to_int with
    | some ints => .ok (some ints)
    | none => .error ()

/-- `granularidad = (body.get("granularidad") or "DIA").upper()`, reset to
`"DIA"` when not one of the three enum values. -/
def granularity_of (o : Option String) : String :=
  let g := py_upper ((if truthyS o then o else none).getD "DIA")
  if g = "DIA" ∨ g = "SEMANA" ∨ g = "MES" then g else "DIA"

/-- The request body (`POST /rendimientoDescomposicion`).  `chunk_days` and
`max_concurrency` arrive as JSON numbers (`int(...)` of a numeric string is
not modelled); `max_concurrency` only sizes the worker pool and has no
effect on any output field. -/
structure Body where
  usuario : Option String := none
  area_id : Option ℤ := none
  area_nombre : Option String := none
  fecha_inicio : Option String := none
  fecha_fin : Option String := none
  granularidad : Option String := none
  product_ids : Option (List PyVal) := none
  incluir_movimientos : Option Bool := none
  chunk_days : Option ℤ := none
  max_concurrency : Option ℤ := none
  modo_agregado : Option Bool := none
  modo_asistente : Option Bool := none
  texto : Option String := none
deriving DecidableEq

/-- One upstream HTTP interaction of the pipeline. -/
inductive UpCall where
  | list_areas
  | list_movements (date_from date_to : String)
  | movement_detail (mid : ℤ)
deriving DecidableEq

/-- How a request ends when it does not produce a normal result. -/
inductive SvcErr where
  | http (status : ℤ) (detail : String)
  | py_error (msg : String)
  | hang
deriving DecidableEq

/-- The upstream world: session store, area listing, movement ids per
window, and movement detail per id.  Calls are modelled as total (an
upstream non-2xx raises `HTTPException` out of the loop — not exercised by
any claim); a failing detail fetch is `detail _ = .error msg`. -/
structure Env where
  ctx_ok : String → Bool
  areas : List AreaRec
  mov_ids : String → String → List ℤ
  detail : ℤ → Except String Detail
  today : ℤ

/-- Response assembly (service step 4 and the final dict).  `movimientos`
is `some _` when the key is present in the returned dict — which is
always; `Option` exists to make the spec's "omitted" claim statable. -/
structure SerieItem where
  bucket : String
  padre_usado : ℚ
  manufacturados : ℚ
  merma : ℚ
  rendimiento_porcentaje : Option ℚ
deriving DecidableEq

structure PorProductoItem where
  productId : ℤ
  productName : String
  measure : Option String
  movimientos : ℕ
  usado_padre : ℚ
  manufacturados : ℚ
  merma : ℚ
  rendimiento_promedio : Option ℚ
  rendimiento_min : Option ℚ
  rendimiento_max : Option ℚ
  rendimiento_stddev : Option ℝ

structure Resumen where
  padre_usado : ℚ
  manufacturados : ℚ
  merma : ℚ
  rendimiento_ponderado_porcentaje : Option ℚ
deriving DecidableEq

structure Periodo where
  desde : String
  hasta : String
  granularidad : String
deriving DecidableEq

structure AreaOut where
  id : ℤ
  nombre : String
deriving DecidableEq

structure Response where
  periodo : Periodo
  area : AreaOut
  filtros_product_ids : List ℤ
  resumen : Resumen
  series : List SerieItem
  por_producto : List PorProductoItem
  movimientos : Option (List MovRow)
  warnings : List String

def mk_serie (b : String × SVals) : SerieItem :=
  { bucket := b.1
  , padre_usado := py_round 4 b.2.usado
  , manufacturados := py_round 4 b.2.manuf
  , merma := py_round 4 b.2.merma
  , rendimiento_porcentaje :=
      if 0 < b.2.usado then some (py_round 2 (b.2.manuf / b.2.usado * 100)) else none }

noncomputable def mk_por_producto (p : ℤ × PAgg) : PorProductoItem :=
  let st := stats_of p.2.rend_list
  { productId := p.1
  , productName := p.2.name
  , measure := p.2.measure
  , movimientos := p.2.mov
  , usado_padre := py_round 4 p.2.usado
  , manufacturados := py_round 4 p.2.manuf
  , merma := py_round 4 p.2.merma
  , rendimiento_promedio := st.1
  , rendimiento_min := st.2.1
  , rendimiento_max := st.2.2.1
  , rendimiento_stddev := st.2.2.2 }

noncomputable def build_response (fecha_inicio fecha_fin granularidad : String)
    (area_id : ℤ) (resolved_area_name : Option String)
    (product_filter : Option (List ℤ)) (incluir_movs : Bool)
    (st : AggState) : Response :=
  { periodo := ⟨fecha_inicio, fecha_fin, granularidad⟩
  , area := ⟨area_id, resolved_area_name.getD ""⟩
  , filtros_product_ids := product_filter.getD []
  , resumen :=
    { padre_usado := py_round 4 st.total_usado
    , manufacturados := py_round 4 st.total_manuf
    , merma := py_round 4 st.total_merma
    , rendimiento_ponderado_porcentaje :=
        if 0 < st.total_usado
        then some (py_round 2 (st.total_manuf / st.total_usado * 100))
        else none }
  , series := (st.series_aggr.mergeSort (fun a b => decide (a.1 ≤ b.1))).map mk_serie
  , por_producto := st.prod_aggr.map mk_por_producto
  , movimientos := some (if incluir_movs then st.movimientos_kpi else [])
  , warnings := st.warnings }

/-- A normal return value of the service: either the `"ask"` payload or
the full response dict. -/
inductive ServiceOut where
  | ask (payload : AskPayload)
  | result (resp : Response)

/-- One movement id inside a window: detail fetch (failures caught and
collected as warnings, per id) followed by the aggregation loop body. -/
def step_mid (env : Env) (granularidad : String) (incluir_movs : Bool)
    (pf : Option (List ℤ)) (s : AggState) (mid : ℤ) : Option AggState :=
  match env.detail mid with
  | .error e => some { s with warnings := s.warnings ++ [fetch_error_warning mid e] }
  | .ok d =>
    match compute_kpis_from_detail d pf with
    | none =>
      some { s with warnings := s.warnings ++ [fetch_error_warning mid py_type_error_msg] }
    | some (kpi, ws) =>
      process_kpi granularidad incluir_movs { s with warnings := s.warnings ++ ws } kpi

/-- One date window: one movement-list interaction (all its pages), then
one detail call per collected id.  A request already aborted by an uncaught
exception (`none` state) performs no further calls. -/
def window_step (env : Env) (granularidad : String) (incluir_movs : Bool)
    (pf : Option (List ℤ)) (acc : List UpCall × Option AggState) (w : ℤ × ℤ) :
    List UpCall × Option AggState :=
  match acc.2 with
  | none => acc
  | some st =>
    let df := fmt_days w.1
    let dt := fmt_days w.2
    let ids := env.mov_ids df dt
    (acc.1 ++ UpCall.list_movements df dt :: ids.map UpCall.movement_detail,
     ids.foldlM (step_mid env granularidad incluir_movs pf) st)

/-- The working date-range strings after the defaulting rules of the
service (`today` when both absent, one filling in for the other). -/
def effective_dates (env : Env) (body : Body) : String × String :=
  let fiT := truthyS body.fecha_inicio
  let ffT := truthyS body.fecha_fin
  (if ¬fiT ∧ ¬ffT then fmt_days env.today
   else if fiT then body.fecha_inicio.getD ""
   else body.fecha_fin.getD "",
   if ¬fiT ∧ ¬ffT then fmt_days env.today
   else if ffT then body.fecha_fin.getD ""
   else body.fecha_inicio.getD "")

/-- `rendimiento_descomposicion_service(body)`: the upstream calls issued
(in program order) and the outcome. -/
noncomputable def rendimiento_descomposicion_service (env : Env) (body : Body) :
    List UpCall × Except SvcErr ServiceOut :=
  if ¬ truthyS body.usuario then ([], .error (.http 400 msg_falta_usuario)) else
  if ¬ env.ctx_ok (body.usuario.getD "") then ([], .error (.http 403 msg_no_autenticado)) else
  let modo_asistente := body.modo_asistente.getD false || truthyS body.texto
  let consults_areas := truthyI body.area_id || truthyS body.area_nombre || modo_asistente
  let calls0 : List UpCall := if consults_areas then [.list_areas] else []
  match resolve_area_or_ask env.areas body.area_id body.area_nombre modo_asistente with
  | .error e => (calls0, .error (.http e.1 e.2))
  | .ok (.ask p) => (calls0, .ok (.ask p))
  | .ok (.resolved area_id resolved_area_name) =>
  if area_id = 0 then (calls0, .error (.http 400 msg_missing_area)) else
  let fecha_inicio := (effective_dates env body).1
  let fecha_fin := (effective_dates env body).2
  match parse_date fecha_inicio, parse_date fecha_fin with
  | some fi, some ff =>
    let granularidad := granularity_of body.granularidad
    match parse_product_filter body.product_ids with
    | .error _ => (calls0, .error (.http 400 msg_product_ids))
    | .ok product_filter =>
    let incluir_movs0 := body.incluir_movimientos.getD false
    let chunk_days := if truthyI body.chunk_days then body.chunk_days.getD 30 else 30
    let modo_agregado := body.modo_agregado.getD false
    let incluir_movs := if modo_agregado then false else incluir_movs0
    let fi_n := days_from_civil fi.1 fi.2.1 fi.2.2
    let ff_n := days_from_civil ff.1 ff.2.1 ff.2.2
    match chunk_windows ((ff_n - fi_n).toNat + 1) fi_n ff_n chunk_days with
    | none => (calls0, .error .hang)
    | some ws =>
      let lc := ws.foldl (window_step env granularidad incluir_movs product_filter)
        ([], some {})
      match lc.2 with
      | none => (calls0 ++ lc.1, .error (.py_error "ValueError: _bucket_key"))
      | some st =>
        (calls0 ++ lc.1,
         .ok (.result (build_response fecha_inicio fecha_fin granularidad area_id
           resolved_area_name product_filter incluir_movs st)))
  | _, _ => (calls0, .error (.py_error "ValueError: strptime"))

/-- Invariant of every aggregation state the service can reach: parent-used
sums are non-negative (parent quantities pass through `abs`), and a product
collects at most one yield sample per movement it appears in. -/
def agg_inv (st : AggState) : Prop :=
  0 ≤ st.total_usado ∧ (∀ b ∈ st.series_aggr, 0 ≤ b.2.usado) ∧
  (∀ p ∈ st.prod_aggr, p.2.rend_list.length ≤ p.2.mov)

/-!  ### Concrete scenarios used by witnesses and counterexamples -/

/-- A well-behaved decomposition movement: parent 10 kg, one manufactured
child of 8 kg, one waste child of 1 (spec §8 final scenario). -/
def detail_w : Detail :=
  { id := 7
  , quantity := some 10
  , product := some { id := some 100, name := some "Pollo", measure := some "kg" }
  , createdAt := some "2025-08-26T15:18:34.724Z"
  , childs :=
    [ { operation := some "ENTRY", category := some "DESCOMPOSITION"
      , product := some { id := some 200, name := some "Pechuga"
                        , measure := some "kg", type := some "MANUFACTURED" }
      , quantity := some 8 }
    , { operation := some "ENTRY", category := some "WASTE"
      , product := some { id := some 300, name := some "Huesos"
                        , measure := some "kg", type := some "WASTE" }
      , quantity := some 1 } ] }

def env_w : Env :=
  { ctx_ok := fun _ => true
  , areas := [⟨3, some "Cocina"⟩]
  , mov_ids := fun _ _ => [7]
  , detail := fun _ => .ok detail_w
  , today := 20000 }

def body_w : Body :=
  { usuario := some "u", area_id := some 3
  , fecha_inicio := some "2025-08-26", fecha_fin := some "2025-08-26" }

/-- The aggregation state the service reaches on `env_w`/`body_w`. -/
def st_w : AggState :=
  { total_usado := 10, total_manuf := 8, total_merma := 1
  , series_aggr := [("2025-08-26", { usado := 10, manuf := 8, merma := 1 })]
  , prod_aggr := [(200, { name := "Pechuga", measure := some "kg", mov := 1
                        , usado := 10, manuf := 8, merma := 1, rend_list := [80] })]
  , movimientos_kpi := []
  , warnings := [] }

/-- The KPI row `_compute_kpis_from_detail` produces for `detail_w`. -/
def kpi_w : Kpi :=
  { movementId := 7
  , fecha := "2025-08-26"
  , padre_productId := some 100
  , padre_productName := "Pollo"
  , padre_measure := some "kg"
  , padre_usado := 10
  , manufacturados_total := 8
  , merma_total := 1
  , rendimiento_porcentaje := some 80
  , createdAt := "2025-08-26T15:18:34.724Z"
  , manuf_by_product := [(200, { name := "Pechuga", measure := some "kg", qty := 8 })] }

/-- The aggregation state after processing `kpi_w` from the empty state. -/
def st5 : AggState := (process_kpi "DIA" false {} kpi_w).getD {}

/-- A movement whose manufactured children include a zero-quantity child
with a unit (`"g"`) different from the parent's (`"kg"`). -/
def detail_c3 : Detail :=
  { id := 42
  , quantity := some 10
  , product := some { id := some 100, name := some "Pollo", measure := some "kg" }
  , createdAt := some "2025-08-26T15:18:34.724Z"
  , childs :=
    [ { operation := some "ENTRY", category := some "DESCOMPOSITION"
      , product := some { id := some 200, name := some "Pechuga"
                        , measure := some "kg", type := some "MANUFACTURED" }
      , quantity := some 8 }
    , { operation := some "ENTRY", category := some "DESCOMPOSITION"
      , product := some { id := some 201, name := some "Ala"
                        , measure := some "g", type := some "MANUFACTURED" }
      , quantity := some 0 } ] }

/-- A movement with a positive-quantity manufactured child whose unit
(`"g"`) differs from the parent's (`"kg"`). -/
def detail_c3w : Detail :=
  { id := 43
  , quantity := some 10
  , product := some { id := some 100, name := some "Pollo", measure := some "kg" }
  , createdAt := some "2025-08-26T15:18:34.724Z"
  , childs :=
    [ { operation := some "ENTRY", category := some "DESCOMPOSITION"
      , product := some { id := some 200, name := some "Pechuga"
                        , measure := some "kg", type := some "MANUFACTURED" }
      , quantity := some 8 }
    , { operation := some "ENTRY", category := some "DESCOMPOSITION"
      , product := some { id := some 201, name := some "Ala"
                        , measure := some "g", type := some "MANUFACTURED" }
      , quantity := some 2 } ] }

/-- The KPI row `_compute_kpis_from_detail` produces for `detail_c3w`. -/
def kpi_c3w : Kpi :=
  { movementId := 43
  , fecha := "2025-08-26"
  , padre_productId := some 100
  , padre_productName := "Pollo"
  , padre_measure := some "kg"
  , padre_usado := 10
  , manufacturados_total := 10
  , merma_total := 0
  , rendimiento_porcentaje := none
  , createdAt := "2025-08-26T15:18:34.724Z"
  , manuf_by_product :=
      [ (200, { name := "Pechuga", measure := some "kg", qty := 8 })
      , (201, { name := "Ala", measure := some "g", qty := 2 }) ] }

/-- A movement with parent quantity 0 and one manufactured child: its yield
is undefined, yet the child's product gets a `por_producto` row with
`movimientos = 1`. -/
def detail_c4 : Detail :=
  { id := 9
  , quantity := some 0
  , product := some { id := some 100, name := some "Pollo", measure := some "kg" }
  , createdAt := some "2025-08-26T15:18:34.724Z"
  , childs :=
    [ { operation := some "ENTRY", category := some "DESCOMPOSITION"
      , product := some { id := some 200, name := some "Pechuga"
                        , measure := some "kg", type := some "MANUFACTURED" }
      , quantity := some 5 } ] }

def env_c4 : Env := { env_w with detail := fun _ => .ok detail_c4 }

/-- The aggregation state the service reaches on `env_c4`/`body_w`. -/
def st_c4 : AggState :=
  { total_usado := 0, total_manuf := 5, total_merma := 0
  , series_aggr := [("2025-08-26", { usado := 0, manuf := 5, merma := 0 })]
  , prod_aggr := [(200, { name := "Pechuga", measure := some "kg", mov := 1
                        , usado := 0, manuf := 5, merma := 0, rend_list := [] })]
  , movimientos_kpi := []
  , warnings := [] }

/-- The upstream calls the service makes on `env_w`-like environments. -/
def calls_w : List UpCall :=
  [.list_areas, .list_movements "2025-08-26" "2025-08-26", .movement_detail 7]

/-- The response of the service on `env_w`/`body_w`. -/
noncomputable def resp_w : Response :=
  build_response "2025-08-26" "2025-08-26" "DIA" 3 (some "Cocina") none false st_w

/-- The response of the service on `env_c4`/`body_w`. -/
noncomputable def resp_c4 : Response :=
  build_response "2025-08-26" "2025-08-26" "DIA" 3 (some "Cocina") none false st_c4

/-- Aggregated-only mode requested together with movement detail. -/
def body_c7 : Body :=
  { body_w with incluir_movimientos := some true, modo_agregado := some true }

/-- A malformed `product_ids` filter (not convertible to ints). -/
def body_c6 : Body := { body_w with product_ids := some [.str "x"] }

/-- An invalid date string. -/
def body_c6d : Body :=
  { body_w with fecha_inicio := some "2025-13-01", fecha_fin := none }

/-!  ## Association-list lemmas -/

theorem lookup_upd_self {κ α : Type} [DecidableEq κ] (dflt : α) (l : List (κ × α))
    (k : κ) (f : α → α) :
    lookup_assoc (upd_assoc dflt l k f) k = some (f ((lookup_assoc l k).getD dflt)) := by
  induction l with
  | nil => simp [upd_assoc, lookup_assoc]
  | cons hd tl ih =>
    obtain ⟨k', v⟩ := hd
    by_cases h : k' = k
    · subst h; simp [upd_assoc, lookup_assoc]
    · simp [upd_assoc, lookup_assoc, h, ih]

theorem lookup_upd_ne {κ α : Type} [DecidableEq κ] (dflt : α) (l : List (κ × α))
    (k k' : κ) (f : α → α) (hne : k' ≠ k) :
    lookup_assoc (upd_assoc dflt l k f) k' = lookup_assoc l k' := by
  induction l with
  | nil => simp [upd_assoc, lookup_assoc, Ne.symm hne]
  | cons hd tl ih =>
    obtain ⟨k'', v⟩ := hd
    by_cases h : k'' = k
    · subst h
      simp [upd_assoc, lookup_assoc, Ne.symm hne]
    · simp only [upd_assoc, lookup_assoc, if_neg h]
      by_cases h2 : k'' = k'
      · simp [lookup_assoc, h2]
      · simp [lookup_assoc, h2, ih]

theorem upd_assoc_keys {κ α : Type} [DecidableEq κ] (dflt : α) (l : List (κ × α))
    (k : κ) (f : α → α) :
    (upd_assoc dflt l k f).map Prod.fst =
      if k ∈ l.map Prod.fst then l.map Prod.fst else l.map Prod.fst ++ [k] := by
  induction l with
  | nil => simp [upd_assoc]
  | cons hd tl ih =>
    obtain ⟨k', v⟩ := hd
    by_cases h : k' = k
    · subst h; simp [upd_assoc]
    · simp only [upd_assoc, if_neg h, List.map_cons, List.mem_cons]
      rw [ih]
      by_cases h2 : k ∈ tl.map Prod.fst
      · simp [h2, Ne.symm h]
      · simp [h2, Ne.symm h]

theorem upd_assoc_nodup {κ α : Type} [DecidableEq κ] (dflt : α) (l : List (κ × α))
    (k : κ) (f : α → α) (h : (l.map Prod.fst).Nodup) :
    ((upd_assoc dflt l k f).map Prod.fst).Nodup := by
  rw [upd_assoc_keys]
  by_cases hk : k ∈ l.map Prod.fst
  · simpa [hk] using h
  · rw [if_neg hk]
    refine List.Nodup.append h (List.nodup_singleton k) ?_
    intro a ha hb
    simp only [List.mem_singleton] at hb
    exact hk (hb ▸ ha)

theorem mem_upd_assoc {κ α : Type} [DecidableEq κ] (dflt : α) (l : List (κ × α))
    (k : κ) (f : α → α) (x : κ × α) :
    x ∈ upd_assoc dflt l k f →
      x ∈ l ∨ ∃ v, x = (k, f v) ∧ (v = dflt ∨ (k, v) ∈ l) := by
  induction l with
  | nil =>
    intro hx
    simp only [upd_assoc, List.mem_singleton] at hx
    exact Or.inr ⟨dflt, hx, Or.inl rfl⟩
  | cons hd tl ih =>
    obtain ⟨k', v⟩ := hd
    intro hx
    by_cases h : k' = k
    · subst h
      rw [show upd_assoc dflt ((k', v) :: tl) k' f = (k', f v) :: tl from by
        simp [upd_assoc]] at hx
      rcases List.mem_cons.mp hx with hx | hx
      · exact Or.inr ⟨v, hx, Or.inr (List.mem_cons_self _ _)⟩
      · exact Or.inl (List.mem_cons_of_mem _ hx)
    · simp only [upd_assoc, if_neg h, List.mem_cons] at hx
      rcases hx with hx | hx
      · exact Or.inl (by simp [hx])
      · rcases ih hx with h1 | ⟨w, hw1, hw2⟩
        · exact Or.inl (List.mem_cons_of_mem _ h1)
        · exact Or.inr ⟨w, hw1, hw2.imp id (List.mem_cons_of_mem _)⟩

/-!  ## Classifier lemmas (claims C2, C3) -/

theorem allow_pass_eq_not_filter_skips (pf : Option (List ℤ)) (pid : Option ℤ) :
    allow_pass pf pid = !filter_skips pf pid := by
  cases pf with
  | none => rfl
  | some l =>
    cases l with
    | nil => rfl
    | cons x xs => cases pid <;> simp [allow_pass, filter_skips]

theorem manuf_not_waste (ch : ChildLine) (h : is_manuf_child ch = true) :
    is_waste_child ch = false := by
  simp only [is_manuf_child, Bool.and_eq_true, beq_iff_eq] at h
  obtain ⟨⟨_, hcat⟩, htype⟩ := h
  simp [is_waste_child, htype, hcat]

theorem child_fold_err_frozen (pf : Option (List ℤ)) :
    ∀ (childs : List ChildLine) (s : ChildState), s.err = true →
      childs.foldl (child_step pf) s = s := by
  intro childs
  induction childs with
  | nil => intro s _; rfl
  | cons ch rest ih =>
    intro s h
    have : child_step pf s ch = s := by simp [child_step, h]
    rw [List.foldl_cons, this, ih s h]

theorem child_fold_totals (pf : Option (List ℤ)) :
    ∀ (childs : List ChildLine) (s : ChildState),
      (childs.foldl (child_step pf) s).err = false →
      (childs.foldl (child_step pf) s).manuf_total
          = s.manuf_total + manuf_total_spec pf childs ∧
      (childs.foldl (child_step pf) s).waste_total
          = s.waste_total + merma_total_spec childs := by
  intro childs
  induction childs with
  | nil => intro s _; simp [manuf_total_spec, merma_total_spec]
  | cons ch rest ih =>
    intro s h
    rw [List.foldl_cons] at h ⊢
    by_cases hserr : s.err = true
    · rw [show child_step pf s ch = s from by simp [child_step, hserr],
          child_fold_err_frozen pf rest s hserr] at h
      rw [h] at hserr; exact absurd hserr (by simp)
    · have hserr' : s.err = false := by simpa using hserr
      by_cases hm : is_manuf_child ch = true
      · have hw := manuf_not_waste ch hm
        by_cases hf : filter_skips pf (ch.product.getD {}).id = true
        · have hstep : child_step pf s ch = s := by
            simp [child_step, hserr', hm, hf]
          rw [hstep] at h ⊢
          have hspec : manuf_total_spec pf (ch :: rest) = manuf_total_spec pf rest := by
            simp [manuf_total_spec, hm, allow_pass_eq_not_filter_skips, hf]
          have hwaste : merma_total_spec (ch :: rest) = merma_total_spec rest := by
            simp [merma_total_spec, hw]
          rw [hspec, hwaste]
          exact ih s h
        · have hf' : filter_skips pf (ch.product.getD {}).id = false := by simpa using hf
          cases hpid : (ch.product.getD {}).id with
          | none =>
            have hf2 : filter_skips pf none = false := by rw [← hpid]; exact hf'
            have hstep : child_step pf s ch =
                { s with manuf_total := s.manuf_total + ch.quantity.getD 0, err := true } := by
              simp [child_step, hserr', hm, hf', hf2, hpid]
            rw [hstep, child_fold_err_frozen pf rest _ (by rfl)] at h
            exact absurd h (by simp)
          | some pid =>
            have hf2 : filter_skips pf (some pid) = false := by rw [← hpid]; exact hf'
            have hstep : child_step pf s ch =
                { s with
                  manuf_total := s.manuf_total + ch.quantity.getD 0
                  , manuf_by_product := upd_assoc {} s.manuf_by_product pid
                      (fun d => { name := (ch.product.getD {}).name.getD ""
                                , measure := (ch.product.getD {}).measure
                                , qty := d.qty + ch.quantity.getD 0 }) } := by
              simp [child_step, hserr', hm, hf', hf2, hpid]
            rw [hstep] at h ⊢
            obtain ⟨ih1, ih2⟩ := ih _ h
            constructor
            · rw [ih1]
              have hspec : manuf_total_spec pf (ch :: rest)
                  = ch.quantity.getD 0 + manuf_total_spec pf rest := by
                simp [manuf_total_spec, hm, allow_pass_eq_not_filter_skips, hf']
              rw [hspec]; ring
            · rw [ih2]
              have hwaste : merma_total_spec (ch :: rest) = merma_total_spec rest := by
                simp [merma_total_spec, hw]
              rw [hwaste]
      · have hm' : is_manuf_child ch = false := by simpa using hm
        have hspec : manuf_total_spec pf (ch :: rest) = manuf_total_spec pf rest := by
          simp [manuf_total_spec, hm']
        by_cases hwch : is_waste_child ch = true
        · have hstep : child_step pf s ch =
              { s with waste_total := s.waste_total + ch.quantity.getD 0 } := by
            simp [child_step, hserr', hm', hwch]
          rw [hstep] at h ⊢
          obtain ⟨ih1, ih2⟩ := ih _ h
          refine ⟨by rw [ih1, hspec], ?_⟩
          rw [ih2]
          have hwaste : merma_total_spec (ch :: rest)
              = ch.quantity.getD 0 + merma_total_spec rest := by
            simp [merma_total_spec, hwch]
          rw [hwaste]; ring
        · have hwch' : is_waste_child ch = false := by simpa using hwch
          have hstep : child_step pf s ch = s := by
            simp [child_step, hserr', hm', hwch']
          rw [hstep] at h ⊢
          have hwaste : merma_total_spec (ch :: rest) = merma_total_spec rest := by
            simp [merma_total_spec, hwch']
          rw [hspec, hwaste]
          exact ih s h

/-- C2: for every movement detail payload and optional product-id
allow-list, the classifier returns a manufactured total equal to the sum
of child quantities whose operation is ENTRY, category is DESCOMPOSITION
and product type is MANUFACTURED, restricted to the allow-list when a
(non-degenerate) one is given, and a waste total equal to the sum of child
quantities whose operation is ENTRY and whose product type or category is
WASTE; the allow-list never restricts the waste sum. -/
theorem claim_C2 (detail : Detail) (pf : Option (List ℤ)) (kpi : Kpi)
    (ws : List String)
    (h : compute_kpis_from_detail detail pf = some (kpi, ws)) :
    kpi.manufacturados_total = manuf_total_spec pf detail.childs ∧
    kpi.merma_total = merma_total_spec detail.childs := by
  simp only [compute_kpis_from_detail] at h
  by_cases herr : (detail.childs.foldl (child_step pf) {}).err = true
  · rw [if_pos herr] at h; exact absurd h (by simp)
  · rw [if_neg herr] at h
    have herr' : (detail.childs.foldl (child_step pf) {}).err = false := by
      simpa using herr
    obtain ⟨hk, -⟩ : _ ∧ _ := by simpa using h
    obtain ⟨h1, h2⟩ := child_fold_totals pf detail.childs {} herr'
    rw [← hk]
    exact ⟨by simpa using h1, by simpa using h2⟩

/-- Witness for C2 at the concrete movement `detail_w`. -/
theorem claim_C2_witness :
    (compute_kpis_from_detail detail_w none).map
        (fun kw => (kw.1.manufacturados_total, kw.1.merma_total)) =
      some (manuf_total_spec none detail_w.childs, merma_total_spec detail_w.childs) := by
  obtain ⟨kpi, ws, hk⟩ :
      ∃ kpi ws, compute_kpis_from_detail detail_w none = some (kpi, ws) := ⟨_, _, rfl⟩
  rw [hk]
  obtain ⟨h1, h2⟩ := claim_C2 detail_w none kpi ws hk
  simp [h1, h2]

/-!  ## Per-product attribution (claim C5) -/

theorem child_step_nodup (pf : Option (List ℤ)) (s : ChildState) (ch : ChildLine)
    (h : (s.manuf_by_product.map Prod.fst).Nodup) :
    (((child_step pf s ch).manuf_by_product).map Prod.fst).Nodup := by
  by_cases h1 : s.err = true
  · simpa [child_step, h1] using h
  · have h1' : s.err = false := by simpa using h1
    by_cases h2 : is_manuf_child ch = true
    · by_cases h3 : filter_skips pf (ch.product.getD {}).id = true
      · simpa [child_step, h1', h2, h3] using h
      · have h3' : filter_skips pf (ch.product.getD {}).id = false := by simpa using h3
        cases h4 : (ch.product.getD {}).id with
        | none =>
          have h5 : filter_skips pf none = false := by rw [← h4]; exact h3'
          simpa [child_step, h1', h2, h3', h4, h5] using h
        | some pid =>
          have h5 : filter_skips pf (some pid) = false := by rw [← h4]; exact h3'
          have hstep : (child_step pf s ch).manuf_by_product =
              upd_assoc {} s.manuf_by_product pid
                (fun d => { name := (ch.product.getD {}).name.getD ""
                          , measure := (ch.product.getD {}).measure
                          , qty := d.qty + ch.quantity.getD 0 }) := by
            simp [child_step, h1', h2, h3', h4, h5]
          rw [hstep]
          exact upd_assoc_nodup _ _ _ _ h
    · have h2' : is_manuf_child ch = false := by simpa using h2
      by_cases h6 : is_waste_child ch = true
      · simpa [child_step, h1', h2', h6] using h
      · have h6' : is_waste_child ch = false := by simpa using h6
        simpa [child_step, h1', h2', h6'] using h

theorem child_fold_nodup (pf : Option (List ℤ)) :
    ∀ (childs : List ChildLine) (s : ChildState),
      (s.manuf_by_product.map Prod.fst).Nodup →
      (((childs.foldl (child_step pf) s).manuf_by_product).map Prod.fst).Nodup := by
  intro childs
  induction childs with
  | nil => intro s h; exact h
  | cons ch rest ih =>
    intro s h
    rw [List.foldl_cons]
    exact ih _ (child_step_nodup pf s ch h)

/-- The per-product breakdown of a classified movement has no duplicate
product ids (it was built as a dict). -/
theorem classifier_nodup (d : Detail) (pf : Option (List ℤ)) (kpi : Kpi)
    (ws : List String) (h : compute_kpis_from_detail d pf = some (kpi, ws)) :
    (kpi.manuf_by_product.map Prod.fst).Nodup := by
  simp only [compute_kpis_from_detail] at h
  by_cases herr : (d.childs.foldl (child_step pf) {}).err = true
  · rw [if_pos herr] at h; exact absurd h (by simp)
  · rw [if_neg herr] at h
    obtain ⟨hk, -⟩ : _ ∧ _ := by simpa using h
    rw [← hk]
    simpa using child_fold_nodup pf d.childs {} (by simp)

theorem lookup_foldl_upd_not_mem (kpi : Kpi) :
    ∀ (entries : List (ℤ × MAcc)) (init : List (ℤ × PAgg)) (pid : ℤ),
      pid ∉ entries.map Prod.fst →
      lookup_assoc (entries.foldl (upd_prod_entry kpi) init) pid
        = lookup_assoc init pid := by
  intro entries
  induction entries with
  | nil => intro init pid _; rfl
  | cons e rest ih =>
    intro init pid hnm
    rw [List.foldl_cons]
    have h1 : pid ∉ rest.map Prod.fst := fun hh => hnm (List.mem_cons_of_mem _ hh)
    have h2 : pid ≠ e.1 := fun hh => hnm (by simp [hh])
    rw [ih _ _ h1, upd_prod_entry, lookup_upd_ne _ _ _ _ _ h2]

theorem lookup_foldl_upd (kpi : Kpi) :
    ∀ (entries : List (ℤ × MAcc)) (init : List (ℤ × PAgg)) (pid : ℤ) (info : MAcc),
      (entries.map Prod.fst).Nodup → (pid, info) ∈ entries →
      lookup_assoc (entries.foldl (upd_prod_entry kpi) init) pid =
        some (upd_prod kpi info ((lookup_assoc init pid).getD {})) := by
  intro entries
  induction entries with
  | nil => intro init pid info _ hm; cases hm
  | cons e rest ih =>
    intro init pid info hnd hm
    rw [List.foldl_cons]
    obtain ⟨hhd, htl⟩ := List.nodup_cons.mp hnd
    rcases List.mem_cons.mp hm with he | ht
    · have he1 : e.1 = pid := by rw [← he]
      have he2 : e.2 = info := by rw [← he]
      have hpid : pid ∉ rest.map Prod.fst := he1 ▸ hhd
      rw [lookup_foldl_upd_not_mem kpi rest _ pid hpid, upd_prod_entry, he1, he2,
        lookup_upd_self]
    · have hne : pid ≠ e.1 := by
        intro hh
        exact hhd (hh ▸ (List.mem_map_of_mem Prod.fst ht))
      rw [ih _ _ _ htl ht, upd_prod_entry, lookup_upd_ne _ _ _ _ _ hne]

/-- C5: for every movement and every product in that movement's
manufactured breakdown, the aggregation loop adds the movement's full
parent-used quantity and full waste quantity (and one movement count) to
that product's accumulator — full attribution, no proportional split. -/
theorem claim_C5 (d : Detail) (pf : Option (List ℤ)) (kpi : Kpi) (ws : List String)
    (granularidad : String) (incluir_movs : Bool) (s s' : AggState)
    (pid : ℤ) (info : MAcc)
    (hk : compute_kpis_from_detail d pf = some (kpi, ws))
    (hmem : (pid, info) ∈ kpi.manuf_by_product)
    (h : process_kpi granularidad incluir_movs s kpi = some s') :
    ∃ pa, lookup_assoc s'.prod_aggr pid = some pa ∧
      pa.usado = ((lookup_assoc s.prod_aggr pid).getD {}).usado + kpi.padre_usado ∧
      pa.merma = ((lookup_assoc s.prod_aggr pid).getD {}).merma + kpi.merma_total ∧
      pa.mov = ((lookup_assoc s.prod_aggr pid).getD {}).mov + 1 := by
  have hnd := classifier_nodup d pf kpi ws hk
  simp only [process_kpi] at h
  split at h
  · exact absurd h (by simp)
  · have hs' : s'.prod_aggr =
        kpi.manuf_by_product.foldl (upd_prod_entry kpi) s.prod_aggr := by
      rw [show s' = _ from (Option.some.inj h).symm]
      cases incluir_movs <;> simp
    rw [hs', lookup_foldl_upd kpi _ _ _ _ hnd hmem]
    exact ⟨_, rfl, by simp [upd_prod], by simp [upd_prod], by simp [upd_prod]⟩

set_option maxRecDepth 4000 in
/-- Concrete classification of `detail_w`. -/
theorem compute_kpis_detail_w :
    compute_kpis_from_detail detail_w none = some (kpi_w, []) := by
  simp [compute_kpis_from_detail, detail_w, kpi_w, child_step, is_manuf_child,
    is_waste_child, filter_skips, upd_assoc, truthyS]
  norm_num [py_round, round_half_even, Int.fract, units_ok, mismatch_warn, truthyS]
  decide

/-- Witness for C5: processing `kpi_w` from the empty state attributes the
full `padre_usado = 10` and `merma = 1` to product 200. -/
theorem claim_C5_witness :
    process_kpi "DIA" false {} kpi_w = some st5 ∧
    ∃ pa, lookup_assoc st5.prod_aggr 200 = some pa ∧
      pa.usado = ((lookup_assoc ({} : AggState).prod_aggr 200).getD {}).usado
        + kpi_w.padre_usado ∧
      pa.merma = ((lookup_assoc ({} : AggState).prod_aggr 200).getD {}).merma
        + kpi_w.merma_total ∧
      pa.mov = ((lookup_assoc ({} : AggState).prod_aggr 200).getD {}).mov + 1 := by
  refine ⟨rfl, ?_⟩
  exact claim_C5 detail_w none kpi_w [] "DIA" false {} st5 200
    { name := "Pechuga", measure := some "kg", qty := 8 }
    compute_kpis_detail_w (List.mem_singleton.mpr rfl) rfl

/-!  ## Unit-mismatch handling (claim C3) -/

/-- C3 (amended): the yield is computed only when the parent unit is set
and every *positive-quantity* entry of the manufactured breakdown carries
the parent's unit; when the parent unit is set and some positive-quantity
entry carries a different (non-null) unit, the movement's yield is `None`
and exactly one warning is appended, naming the movement id and the
units. -/
theorem claim_C3 (d : Detail) (pf : Option (List ℤ)) (kpi : Kpi) (ws : List String)
    (h : compute_kpis_from_detail d pf = some (kpi, ws)) :
    (kpi.rendimiento_porcentaje.isSome = true →
      truthyS kpi.padre_measure = true ∧
      ∀ p ∈ kpi.manuf_by_product, 0 < p.2.qty → p.2.measure = kpi.padre_measure) ∧
    (truthyS kpi.padre_measure = true →
      (∃ p ∈ kpi.manuf_by_product, 0 < p.2.qty ∧ truthyS p.2.measure = true ∧
        p.2.measure ≠ kpi.padre_measure) →
      kpi.rendimiento_porcentaje = none ∧
      ws = [unit_warning kpi.movementId kpi.padre_measure
              (kpi.manuf_by_product.map (fun p => p.2.measure))] ∧
      ws.length = 1) := by
  simp only [compute_kpis_from_detail] at h
  by_cases herr : (d.childs.foldl (child_step pf) {}).err = true
  · rw [if_pos herr] at h; exact absurd h (by simp)
  · rw [if_neg herr] at h
    obtain ⟨hk, hw⟩ : _ ∧ _ := by simpa using h
    subst hk
    subst hw
    set pm := (d.product.getD {}).measure with hpm_def
    set vals := (d.childs.foldl (child_step pf) {}).manuf_by_product.map
      (fun x => x.2) with hvals_def
    constructor
    · intro hsome
      cases huo : units_ok pm vals with
      | false => simp [huo] at hsome
      | true =>
        obtain ⟨h1, h2⟩ := by simpa [units_ok] using huo
        refine ⟨h1, ?_⟩
        intro p hp hq
        have := h2 p.2 (by
          simpa [hvals_def] using List.mem_map_of_mem (fun x => x.2) hp)
        rcases this with hq' | hm'
        · exact absurd hq (by simpa using hq')
        · exact hm'
    · intro hpm hex
      obtain ⟨p, hp, hq, hm, hne⟩ := hex
      have hpv : p.2 ∈ vals := by
        simpa [hvals_def] using List.mem_map_of_mem (fun x => x.2) hp
      have huo : units_ok pm vals = false := by
        simp only [units_ok, Bool.and_eq_false_iff]
        right
        rw [List.all_eq_false]
        exact ⟨p.2, hpv, by simp [hq, hne]⟩
      have hmw : mismatch_warn pm vals = true := by
        rw [mismatch_warn, List.any_eq_true]
        exact ⟨p.2, hpv, by simp [hm, hpm, hne]⟩
      refine ⟨by simp [huo], ?_, ?_⟩
      · simp only [huo, hmw, Bool.not_false, Bool.and_self, if_true]
        simp [hvals_def, List.map_map]
        rfl
      · simp [huo, hmw]

/-- Counterexample to C3 as stated: `detail_c3`'s manufactured children
include a (zero-quantity) child with unit `"g"` while the parent's unit is
`"kg"`, yet the movement still gets the numeric yield 80.0 and no warning
is recorded. -/
theorem claim_C3_counterexample :
    (detail_c3.childs.map (fun ch => (is_manuf_child ch, (ch.product.getD {}).measure)))
        = [(true, some "kg"), (true, some "g")] ∧
    (detail_c3.product.getD {}).measure = some "kg" ∧
    (compute_kpis_from_detail detail_c3 none).map
        (fun kw => (kw.1.rendimiento_porcentaje, kw.2)) = some (some 80, []) := by
  refine ⟨by decide, by decide, ?_⟩
  simp [compute_kpis_from_detail, detail_c3, child_step, is_manuf_child,
    is_waste_child, filter_skips, upd_assoc, truthyS]
  norm_num [py_round, round_half_even, Int.fract, units_ok, mismatch_warn, truthyS]
  decide

set_option maxRecDepth 4000 in
/-- Concrete classification of `detail_c3w` (positive-quantity mismatch). -/
theorem compute_kpis_detail_c3w :
    compute_kpis_from_detail detail_c3w none =
      some (kpi_c3w, [unit_warning 43 (some "kg") [some "kg", some "g"]]) := by
  simp [compute_kpis_from_detail, detail_c3w, kpi_c3w, child_step, is_manuf_child,
    is_waste_child, filter_skips, upd_assoc, truthyS]
  norm_num [py_round, round_half_even, Int.fract, units_ok, mismatch_warn, truthyS]
  decide

/-- Witness for C3 (amended) at `detail_c3w`. -/
theorem claim_C3_witness :
    compute_kpis_from_detail detail_c3w none =
      some (kpi_c3w, [unit_warning 43 (some "kg") [some "kg", some "g"]]) ∧
    kpi_c3w.rendimiento_porcentaje = none ∧
    [unit_warning 43 (some "kg") [some "kg", some "g"]].length = 1 := by
  refine ⟨compute_kpis_detail_c3w, ?_, by simp⟩
  have h := (claim_C3 detail_c3w none kpi_c3w
    [unit_warning 43 (some "kg") [some "kg", some "g"]] compute_kpis_detail_c3w).2
  exact (h (by decide)
    ⟨(201, { name := "Ala", measure := some "g", qty := 2 }),
      List.mem_cons_of_mem _ (List.mem_singleton.mpr rfl),
      by norm_num, by decide, by decide⟩).1

/-!  ## Date chunking (claim C9) -/

theorem chunk_windows_gt (n : ℕ) (cur ff cd : ℤ) (h : ff < cur) :
    chunk_windows n cur ff cd = some [] := by
  cases n <;> simp [chunk_windows, not_le.mpr h]

theorem chunk_windows_mono :
    ∀ (m k : ℕ) (cur ff cd : ℤ) (ws : List (ℤ × ℤ)),
      chunk_windows m cur ff cd = some ws → chunk_windows (m + k) cur ff cd = some ws := by
  intro m
  induction m with
  | zero =>
    intro k cur ff cd ws h
    simp only [chunk_windows] at h
    by_cases hle : cur ≤ ff
    · rw [if_pos hle] at h; exact absurd h (by simp)
    · rw [if_neg hle] at h
      obtain rfl : ws = [] := by simpa using h.symm
      exact chunk_windows_gt _ _ _ _ (not_le.mp hle)
  | succ m ih =>
    intro k cur ff cd ws h
    rw [show m + 1 + k = (m + k) + 1 from by omega]
    simp only [chunk_windows] at h ⊢
    by_cases hle : cur ≤ ff
    · rw [if_pos hle] at h ⊢
      cases hrec : chunk_windows m (min (cur + (cd - 1)) ff + 1) ff cd with
      | none => rw [hrec] at h; exact absurd h (by simp)
      | some ws' =>
        rw [hrec] at h
        rw [ih k _ _ _ _ hrec]
        simpa using h
    · rw [if_neg hle] at h ⊢; exact h

/-- With a non-positive chunk size the loop never makes progress: no
amount of fuel produces a result (the Python loop runs forever). -/
theorem chunk_windows_nonpos (cd : ℤ) (hcd : cd ≤ 0) :
    ∀ (n : ℕ) (cur ff : ℤ), cur ≤ ff → chunk_windows n cur ff cd = none := by
  intro n
  induction n with
  | zero => intro cur ff h; simp [chunk_windows, h]
  | succ n ih =>
    intro cur ff h
    have hmin : min (cur + (cd - 1)) ff = cur + (cd - 1) := min_eq_left (by omega)
    simp only [chunk_windows, if_pos h, hmin]
    rw [ih (cur + (cd - 1) + 1) ff (by omega)]
    rfl

/-- Counterexample to C9 as stated: with chunk size −1 (reachable through
the service's `chunk_days` parameter) the date-chunking loop does not
terminate on the 65-day range. -/
theorem claim_C9_counterexample : ¬ chunk_terminates 0 64 (-1) := by
  rintro ⟨n, hn⟩
  rw [chunk_windows_nonpos (-1) (by norm_num) n 0 64 (by norm_num)] at hn
  simp at hn

/-- C9 (amended): for every start ≤ end and every chunk size ≥ 1, the
date-chunking loop terminates and enumerates finitely many consecutive
inclusive windows, each well-formed, whose union is exactly the requested
range, in chronological order; with chunk size ≤ 0 it does not terminate
(see the counterexample).  In particular a 65-day range with
`chunk_days = 30` gives exactly the 3 windows of 30, 30 and 5 days. -/
theorem claim_C9 :
    (∀ (fi ff cd : ℤ), fi ≤ ff → 1 ≤ cd →
      ∃ ws, chunk_windows ((ff - fi).toNat + 1) fi ff cd = some ws ∧
        chunk_terminates fi ff cd ∧
        ws ≠ [] ∧
        ws.head?.map Prod.fst = some fi ∧
        ws.getLast?.map Prod.snd = some ff ∧
        List.Chain' (fun a b => b.1 = a.2 + 1) ws ∧
        (∀ w ∈ ws, w.1 ≤ w.2)) ∧
    chunk_windows 66 0 64 30 = some [(0, 29), (30, 59), (60, 64)] ∧
    (64 - 0 + 1 = 65 ∧ 29 - 0 + 1 = 30 ∧ 59 - 30 + 1 = 30 ∧ 64 - 60 + 1 = 5) := by
  refine ⟨?_, by decide, by decide⟩
  intro fi ff cd hle hcd
  generalize hn : (ff - fi).toNat = n
  induction n using Nat.strong_induction_on generalizing fi with
  | _ n ih =>
    have hce_lb : fi ≤ min (fi + (cd - 1)) ff := le_min (by omega) hle
    have hce_ub : min (fi + (cd - 1)) ff ≤ ff := min_le_right _ _
    by_cases hend : ff ≤ min (fi + (cd - 1)) ff
    · have hce : min (fi + (cd - 1)) ff = ff := le_antisymm hce_ub hend
      have heq : chunk_windows (n + 1) fi ff cd = some [(fi, ff)] := by
        simp only [chunk_windows, if_pos hle, hce]
        rw [chunk_windows_gt n (ff + 1) ff cd (by omega)]
        rfl
      refine ⟨[(fi, ff)], heq, ⟨n + 1, by rw [heq]; rfl⟩, by simp, by simp, by simp,
        by simp, by simp [hle]⟩
    · have hlt : min (fi + (cd - 1)) ff < ff := lt_of_not_le hend
      set ce := min (fi + (cd - 1)) ff with hce_def
      have hcur' : ce + 1 ≤ ff := by omega
      have hm_lt : (ff - (ce + 1)).toNat < n := by omega
      obtain ⟨ws', hws', hterm', hne', hhd', hlast', hch', hall'⟩ :=
        ih (ff - (ce + 1)).toNat hm_lt (ce + 1) hcur' rfl
      have hfuel : (ff - (ce + 1)).toNat + 1 ≤ n := by omega
      have hws'n : chunk_windows n (ce + 1) ff cd = some ws' := by
        have := chunk_windows_mono ((ff - (ce + 1)).toNat + 1)
          (n - ((ff - (ce + 1)).toNat + 1)) (ce + 1) ff cd ws' hws'
        rwa [show (ff - (ce + 1)).toNat + 1 + (n - ((ff - (ce + 1)).toNat + 1)) = n
          from by omega] at this
      have heq : chunk_windows (n + 1) fi ff cd = some ((fi, ce) :: ws') := by
        simp only [chunk_windows, if_pos hle, ← hce_def, hws'n]
        rfl
      refine ⟨(fi, ce) :: ws', heq, ⟨n + 1, by rw [heq]; rfl⟩, by simp, by simp, ?_, ?_, ?_⟩
      · obtain ⟨b, t, rfl⟩ : ∃ b t, ws' = b :: t := by
          cases ws' with
          | nil => exact absurd rfl hne'
          | cons b t => exact ⟨b, t, rfl⟩
        simpa using hlast'
      · rw [List.chain'_cons']
        constructor
        · intro b hb
          cases ws' with
          | nil => simp at hb
          | cons c t =>
            simp only [List.head?_cons, Option.mem_def, Option.some.injEq] at hb
            subst hb
            have : (c :: t).head?.map Prod.fst = some (ce + 1) := hhd'
            simp only [List.head?_cons, Option.map_some'] at this
            exact (Option.some.inj this)
        · exact hch'
      · intro w hw
        rcases List.mem_cons.mp hw with rfl | hw'
        · exact hce_lb
        · exact hall' w hw'

/-- Witness for C9 (amended) at the 65-day scenario. -/
theorem claim_C9_witness :
    (0 : ℤ) ≤ 64 ∧ (1 : ℤ) ≤ 30 ∧
    ∃ ws, chunk_windows ((64 - 0 : ℤ).toNat + 1) 0 64 30 = some ws ∧
      chunk_terminates 0 64 30 ∧ ws ≠ [] ∧
      ws.head?.map Prod.fst = some 0 ∧
      ws.getLast?.map Prod.snd = some 64 ∧
      List.Chain' (fun a b => b.1 = a.2 + 1) ws ∧
      (∀ w ∈ ws, w.1 ≤ w.2) :=
  ⟨by norm_num, by norm_num, claim_C9.1 0 64 30 (by norm_num) (by norm_num)⟩

/-!  ## Reachable-state invariants and service inversion
(claims C1, C4, C7, C10) -/

theorem classifier_usado_nonneg (d : Detail) (pf : Option (List ℤ)) (kpi : Kpi)
    (ws : List String) (h : compute_kpis_from_detail d pf = some (kpi, ws)) :
    0 ≤ kpi.padre_usado := by
  simp only [compute_kpis_from_detail] at h
  by_cases herr : (d.childs.foldl (child_step pf) {}).err = true
  · rw [if_pos herr] at h; exact absurd h (by simp)
  · rw [if_neg herr] at h
    obtain ⟨hk, -⟩ : _ ∧ _ := by simpa using h
    rw [← hk]
    exact abs_nonneg _

theorem prod_fold_inv (kpi : Kpi) :
    ∀ (entries : List (ℤ × MAcc)) (init : List (ℤ × PAgg)),
      (∀ p ∈ init, p.2.rend_list.length ≤ p.2.mov) →
      ∀ p ∈ entries.foldl (upd_prod_entry kpi) init, p.2.rend_list.length ≤ p.2.mov := by
  intro entries
  induction entries with
  | nil => intro init hinit; exact hinit
  | cons e rest ih =>
    intro init hinit
    rw [List.foldl_cons]
    refine ih _ ?_
    intro p hp
    rcases mem_upd_assoc _ _ _ _ p hp with hold | ⟨v, rfl, hv⟩
    · exact hinit p hold
    · have hvlen : v.rend_list.length ≤ v.mov := by
        rcases hv with rfl | hv'
        · simp
        · exact hinit _ hv'
      simp only [upd_prod]
      cases kpi.rendimiento_porcentaje <;> simp <;> omega

theorem process_kpi_inv (granularidad : String) (incluir_movs : Bool)
    (s : AggState) (kpi : Kpi) (s' : AggState)
    (hq : 0 ≤ kpi.padre_usado) (hinv : agg_inv s)
    (h : process_kpi granularidad incluir_movs s kpi = some s') : agg_inv s' := by
  obtain ⟨h1, h2, h3⟩ := hinv
  simp only [process_kpi] at h
  split at h
  · exact absurd h (by simp)
  · rename_i b hb
    have hs' := (Option.some.inj h).symm
    have husado : s'.total_usado = s.total_usado + kpi.padre_usado := by
      rw [hs']; cases incluir_movs <;> simp
    have hseries : s'.series_aggr =
        upd_assoc {} s.series_aggr b (upd_serie kpi) := by
      rw [hs']; cases incluir_movs <;> simp
    have hprod : s'.prod_aggr =
        kpi.manuf_by_product.foldl (upd_prod_entry kpi) s.prod_aggr := by
      rw [hs']; cases incluir_movs <;> simp
    refine ⟨by rw [husado]; linarith, ?_, ?_⟩
    · rw [hseries]
      intro b hb
      rcases mem_upd_assoc _ _ _ _ b hb with hold | ⟨v, rfl, hv⟩
      · exact h2 b hold
      · have : 0 ≤ v.usado := by
          rcases hv with rfl | hv'
          · simp
          · exact h2 _ hv'
        simp only [upd_serie]
        linarith
    · rw [hprod]
      exact prod_fold_inv kpi _ _ h3

theorem step_mid_inv (env : Env) (granularidad : String) (incluir_movs : Bool)
    (pf : Option (List ℤ)) (s : AggState) (mid : ℤ) (s' : AggState)
    (hinv : agg_inv s)
    (h : step_mid env granularidad incluir_movs pf s mid = some s') : agg_inv s' := by
  obtain ⟨h1, h2, h3⟩ := hinv
  simp only [step_mid] at h
  cases hdet : env.detail mid with
  | error e =>
    rw [hdet] at h
    simp only at h
    obtain rfl : _ = s' := Option.some.inj h
    exact ⟨h1, h2, h3⟩
  | ok d =>
    rw [hdet] at h
    simp only at h
    cases hkw : compute_kpis_from_detail d pf with
    | none =>
      rw [hkw] at h
      simp only at h
      obtain rfl : _ = s' := Option.some.inj h
      exact ⟨h1, h2, h3⟩
    | some kw =>
      obtain ⟨kpi, ws⟩ := kw
      rw [hkw] at h
      simp only at h
      exact process_kpi_inv granularidad incluir_movs
        { s with warnings := s.warnings ++ ws } kpi s'
        (classifier_usado_nonneg d pf kpi ws hkw) ⟨h1, h2, h3⟩ h

theorem foldlM_step_mid_inv (env : Env) (granularidad : String)
    (incluir_movs : Bool) (pf : Option (List ℤ)) :
    ∀ (ids : List ℤ) (s : AggState) (s' : AggState), agg_inv s →
      ids.foldlM (step_mid env granularidad incluir_movs pf) s = some s' →
      agg_inv s' := by
  intro ids
  induction ids with
  | nil =>
    intro s s' hinv h
    obtain rfl : s = s' := Option.some.inj h
    exact hinv
  | cons i rest ih =>
    intro s s' hinv h
    rw [List.foldlM_cons] at h
    cases hstep : step_mid env granularidad incluir_movs pf s i with
    | none => rw [hstep] at h; exact absurd h (by simp)
    | some s1 =>
      rw [hstep] at h
      exact ih s1 s' (step_mid_inv env _ _ _ s i s1 hinv hstep) h

theorem window_fold_inv (env : Env) (granularidad : String)
    (incluir_movs : Bool) (pf : Option (List ℤ)) :
    ∀ (ws : List (ℤ × ℤ)) (acc : List UpCall × Option AggState),
      (∀ s, acc.2 = some s → agg_inv s) →
      ∀ s', (ws.foldl (window_step env granularidad incluir_movs pf) acc).2 = some s' →
        agg_inv s' := by
  intro ws
  induction ws with
  | nil => intro acc hacc s' h; exact hacc s' h
  | cons w rest ih =>
    intro acc hacc s' h
    rw [List.foldl_cons] at h
    refine ih _ ?_ s' h
    intro s1 hs1
    simp only [window_step] at hs1
    split at hs1
    · rename_i hacc2
      simp [hacc2] at hs1
    · rename_i s0 hacc2
      simp only at hs1
      exact foldlM_step_mid_inv env _ _ _ _ s0 s1 (hacc s0 hacc2) hs1

/-- Inversion of a successful service run: the response is the assembly of
a reachable aggregation state under the parsed filter and effective
flags. -/
theorem service_ok_inv (env : Env) (body : Body) (calls : List UpCall)
    (resp : Response)
    (h : rendimiento_descomposicion_service env body = (calls, .ok (.result resp))) :
    ∃ (fi ff : String) (aid : ℤ) (aname : Option String) (pf : Option (List ℤ))
      (st : AggState),
      parse_product_filter body.product_ids = .ok pf ∧
      resp = build_response fi ff (granularity_of body.granularidad) aid aname pf
        (!body.modo_agregado.getD false && body.incluir_movimientos.getD false) st ∧
      agg_inv st := by
  simp only [rendimiento_descomposicion_service] at h
  split at h
  · exact absurd (congrArg Prod.snd h) (by simp)
  · split at h
    · exact absurd (congrArg Prod.snd h) (by simp)
    · split at h
      · exact absurd (congrArg Prod.snd h) (by simp)
      · exact absurd (congrArg Prod.snd h) (by simp)
      · rename_i area_id aname _
        split at h
        · exact absurd (congrArg Prod.snd h) (by simp)
        · split at h
          · rename_i fi ff hfi hff
            split at h
            · exact absurd (congrArg Prod.snd h) (by simp)
            · rename_i pf hpf
              split at h
              · exact absurd (congrArg Prod.snd h) (by simp)
              · rename_i ws hws
                split at h
                · exact absurd (congrArg Prod.snd h) (by simp)
                · rename_i st hst
                  have h2 := congrArg Prod.snd h
                  simp only at h2
                  obtain hresp : _ = resp := by
                    have := Option.some.inj (by
                      simpa using h2)
                    exact this
                  refine ⟨_, _, _, _, pf, st, hpf, hresp.symm, ?_⟩
                  exact window_fold_inv env _ _ pf ws ([], some {})
                    (fun s hs => by
                      obtain rfl : ({} : AggState) = s := Option.some.inj hs
                      exact ⟨le_refl 0, by simp, by simp⟩) st hst
          · exact absurd (congrArg Prod.snd h) (by simp)

/-!  ## Concrete service runs -/

set_option maxRecDepth 8000 in
/-- The service on `env_w`/`body_w`: one area-listing call, one window, one
detail, and the assembled response over `st_w`. -/
theorem service_run_w :
    rendimiento_descomposicion_service env_w body_w = (calls_w, .ok (.result resp_w)) := by
  simp [rendimiento_descomposicion_service, env_w, body_w, st_w, detail_w, calls_w,
    resp_w, truthyS, truthyI, resolve_area_or_ask, find_area_candidates,
    exact_matches, starts_matches, contains_matches, ranked_of, norm_text,
    norm_chars, split_ws, split_ws_aux, nfkd_char, is_combining, py_lower_char,
    dedup_ranked, granularity_of, py_upper, py_upper_char, parse_product_filter,
    effective_dates, parse_date, parse_date_chars, split_dash, digits_to_nat,
    days_in_month, is_leap, days_from_civil, civil_from_days, fmt_days, fmt_date,
    fmt_date_ym, pad2, chunk_windows, window_step, step_mid,
    compute_kpis_from_detail, child_step, is_manuf_child, is_waste_child,
    filter_skips, upd_assoc, units_ok, mismatch_warn, process_kpi, upd_serie,
    upd_prod_entry, upd_prod, bucket_key, iso_year_week, iso_weekday,
    iso_week_count, mov_row, List.foldlM]
  norm_num [py_round, round_half_even, Int.fract,
    show toString (2025:ℤ) = "2025" from rfl, show toString (8:ℤ) = "8" from rfl,
    show toString (26:ℤ) = "26" from rfl,
    show ("2025" ++ "-" ++ ("0" ++ "8") ++ "-" ++ "26" : String) = "2025-08-26" from by decide]

set_option maxRecDepth 8000 in
/-- The service on `env_c4`/`body_w` (zero parent quantity). -/
theorem service_run_c4 :
    rendimiento_descomposicion_service env_c4 body_w = (calls_w, .ok (.result resp_c4)) := by
  simp [rendimiento_descomposicion_service, env_w, env_c4, body_w, st_c4, detail_c4,
    calls_w, resp_c4, truthyS, truthyI, resolve_area_or_ask, find_area_candidates,
    exact_matches, starts_matches, contains_matches, ranked_of, norm_text,
    norm_chars, split_ws, split_ws_aux, nfkd_char, is_combining, py_lower_char,
    dedup_ranked, granularity_of, py_upper, py_upper_char, parse_product_filter,
    effective_dates, parse_date, parse_date_chars, split_dash, digits_to_nat,
    days_in_month, is_leap, days_from_civil, civil_from_days, fmt_days, fmt_date,
    fmt_date_ym, pad2, chunk_windows, window_step, step_mid,
    compute_kpis_from_detail, child_step, is_manuf_child, is_waste_child,
    filter_skips, upd_assoc, units_ok, mismatch_warn, process_kpi, upd_serie,
    upd_prod_entry, upd_prod, bucket_key, iso_year_week, iso_weekday,
    iso_week_count, mov_row, List.foldlM]
  norm_num [py_round, round_half_even, Int.fract,
    show toString (2025:ℤ) = "2025" from rfl, show toString (8:ℤ) = "8" from rfl,
    show toString (26:ℤ) = "26" from rfl,
    show ("2025" ++ "-" ++ ("0" ++ "8") ++ "-" ++ "26" : String) = "2025-08-26" from by decide]

set_option maxRecDepth 8000 in
/-- The service on `env_w`/`body_c7` (aggregated-only mode forced while
movement detail was requested): same state, `movimientos` key = `[]`. -/
theorem service_run_c7 :
    rendimiento_descomposicion_service env_w body_c7 = (calls_w, .ok (.result resp_w)) := by
  simp [rendimiento_descomposicion_service, env_w, body_w, body_c7, st_w, detail_w,
    calls_w, resp_w, truthyS, truthyI, resolve_area_or_ask, find_area_candidates,
    exact_matches, starts_matches, contains_matches, ranked_of, norm_text,
    norm_chars, split_ws, split_ws_aux, nfkd_char, is_combining, py_lower_char,
    dedup_ranked, granularity_of, py_upper, py_upper_char, parse_product_filter,
    effective_dates, parse_date, parse_date_chars, split_dash, digits_to_nat,
    days_in_month, is_leap, days_from_civil, civil_from_days, fmt_days, fmt_date,
    fmt_date_ym, pad2, chunk_windows, window_step, step_mid,
    compute_kpis_from_detail, child_step, is_manuf_child, is_waste_child,
    filter_skips, upd_assoc, units_ok, mismatch_warn, process_kpi, upd_serie,
    upd_prod_entry, upd_prod, bucket_key, iso_year_week, iso_weekday,
    iso_week_count, mov_row, List.foldlM]
  norm_num [py_round, round_half_even, Int.fract,
    show toString (2025:ℤ) = "2025" from rfl, show toString (8:ℤ) = "8" from rfl,
    show toString (26:ℤ) = "26" from rfl,
    show ("2025" ++ "-" ++ ("0" ++ "8") ++ "-" ++ "26" : String) = "2025-08-26" from by decide]

/-!  ## Empty product filter (claim C10) -/

/-- C10: supplying `product_ids = []` behaves exactly as supplying no
filter at all — the two requests produce identical calls and outputs (so
no manufactured child is excluded) — and `filtros.product_ids` in the
response is the empty list. -/
theorem claim_C10 (env : Env) (body : Body) (h : body.product_ids = some []) :
    rendimiento_descomposicion_service env body =
      rendimiento_descomposicion_service env { body with product_ids := none } ∧
    ∀ calls resp,
      rendimiento_descomposicion_service env body = (calls, .ok (.result resp)) →
      resp.filtros_product_ids = [] := by
  constructor
  · obtain ⟨u, aid, an, fi, ff, g, pids, inc, cd, mc, ma, mas, tx⟩ := body
    simp only at h
    subst h
    rfl
  · intro calls resp hrun
    obtain ⟨fi, ff, aid, an, pf, st, hpf, hresp, -⟩ :=
      service_ok_inv env body calls resp hrun
    rw [h] at hpf
    obtain rfl : pf = none := by
      simpa [parse_product_filter] using hpf.symm
    rw [hresp]
    rfl

/-- Witness for C10 at `env_w` with an explicit empty filter. -/
theorem claim_C10_witness :
    rendimiento_descomposicion_service env_w { body_w with product_ids := some [] } =
      rendimiento_descomposicion_service env_w
        { { body_w with product_ids := some [] } with product_ids := none } ∧
    ∀ calls resp,
      rendimiento_descomposicion_service env_w
          { body_w with product_ids := some [] } = (calls, .ok (.result resp)) →
      resp.filtros_product_ids = [] :=
  claim_C10 env_w { body_w with product_ids := some [] } rfl

/-!  ## Presence of the movimientos field (claim C7) -/

/-- Counterexample to C7 as stated: with aggregated-only mode requested
(and movement detail requested too), the response still carries the
`movimientos` key — as an empty list, not omitted. -/
theorem claim_C7_counterexample :
    rendimiento_descomposicion_service env_w body_c7 = (calls_w, .ok (.result resp_w)) ∧
    body_c7.modo_agregado = some true ∧
    body_c7.incluir_movimientos = some true ∧
    resp_w.movimientos = some [] ∧
    resp_w.movimientos ≠ none := by
  refine ⟨service_run_c7, rfl, rfl, rfl, by simp [resp_w, build_response]⟩

/-- C7 (amended): the `movimientos` key is always present in a successful
response (never omitted); under aggregated-only mode it is the empty list
even when movement detail was requested, and it is also empty when
movement detail was not requested — raw rows appear only when detail is
requested and aggregated-only mode is off. -/
theorem claim_C7 (env : Env) (body : Body) (calls : List UpCall) (resp : Response)
    (h : rendimiento_descomposicion_service env body = (calls, .ok (.result resp))) :
    resp.movimientos.isSome = true ∧
    (body.modo_agregado.getD false = true → resp.movimientos = some []) ∧
    (body.incluir_movimientos.getD false = false → resp.movimientos = some []) ∧
    (∀ rows, resp.movimientos = some rows → rows ≠ [] →
      body.incluir_movimientos.getD false = true ∧
      body.modo_agregado.getD false = false) := by
  obtain ⟨fi, ff, aid, an, pf, st, hpf, hresp, -⟩ :=
    service_ok_inv env body calls resp h
  subst hresp
  refine ⟨by simp [build_response], ?_, ?_, ?_⟩
  · intro hmodo; simp [build_response, hmodo]
  · intro hinc; simp [build_response, hinc]
  · intro rows hrows hne
    by_cases hinc : body.incluir_movimientos.getD false = true
    · by_cases hmodo : body.modo_agregado.getD false = true
      · simp [build_response, hmodo] at hrows
        exact absurd hrows (by simpa using hne)
      · exact ⟨hinc, by simpa using hmodo⟩
    · simp [build_response, eq_false_of_ne_true hinc] at hrows
      exact absurd hrows (by simpa using hne)

/-- Witness for C7 (amended) on the concrete aggregated-only run. -/
theorem claim_C7_witness :
    resp_w.movimientos.isSome = true ∧
    (body_c7.modo_agregado.getD false = true → resp_w.movimientos = some []) ∧
    (body_c7.incluir_movimientos.getD false = false → resp_w.movimientos = some []) ∧
    (∀ rows, resp_w.movimientos = some rows → rows ≠ [] →
      body_c7.incluir_movimientos.getD false = true ∧
      body_c7.modo_agregado.getD false = false) :=
  claim_C7 env_w body_c7 calls_w resp_w service_run_c7

/-!  ## Summary and series ratio laws, series ordering (claim C1) -/

/-- C1: in every successful response, the weighted overall yield equals
`total manufactured / total parent-used × 100` rounded to 2 decimals when
the parent-used total is positive and is null when it is zero (the total
is never negative, so the two cases are exhaustive); every series bucket
obeys the same ratio-with-zero-guard law on its own sums; and the series
rows are sorted ascending by bucket key string.  The `resumen`/series
quantity fields expose the same totals rounded to 4 decimals. -/
theorem claim_C1 (env : Env) (body : Body) (calls : List UpCall) (resp : Response)
    (h : rendimiento_descomposicion_service env body = (calls, .ok (.result resp))) :
    ∃ st : AggState,
      resp.resumen.padre_usado = py_round 4 st.total_usado ∧
      resp.resumen.manufacturados = py_round 4 st.total_manuf ∧
      resp.resumen.merma = py_round 4 st.total_merma ∧
      0 ≤ st.total_usado ∧
      (0 < st.total_usado →
        resp.resumen.rendimiento_ponderado_porcentaje =
          some (py_round 2 (st.total_manuf / st.total_usado * 100))) ∧
      (st.total_usado = 0 →
        resp.resumen.rendimiento_ponderado_porcentaje = none) ∧
      (∀ row ∈ resp.series, ∃ b ∈ st.series_aggr,
        row.bucket = b.1 ∧
        row.padre_usado = py_round 4 b.2.usado ∧
        row.manufacturados = py_round 4 b.2.manuf ∧
        row.merma = py_round 4 b.2.merma ∧
        0 ≤ b.2.usado ∧
        (0 < b.2.usado → row.rendimiento_porcentaje =
          some (py_round 2 (b.2.manuf / b.2.usado * 100))) ∧
        (b.2.usado = 0 → row.rendimiento_porcentaje = none)) ∧
      resp.series.Pairwise (fun r1 r2 => r1.bucket ≤ r2.bucket) := by
  obtain ⟨fi, ff, aid, an, pf, st, hpf, hresp, hinv⟩ :=
    service_ok_inv env body calls resp h
  subst hresp
  obtain ⟨h1, h2, -⟩ := hinv
  refine ⟨st, rfl, rfl, rfl, h1, ?_, ?_, ?_, ?_⟩
  · intro hpos
    simp [build_response, hpos]
  · intro hzero
    simp [build_response, hzero]
  · intro row hrow
    simp only [build_response, List.mem_map] at hrow
    obtain ⟨b, hb, rfl⟩ := hrow
    have hbmem : b ∈ st.series_aggr :=
      (List.mergeSort_perm st.series_aggr _).mem_iff.mp hb
    have hb0 : 0 ≤ b.2.usado := h2 b hbmem
    refine ⟨b, hbmem, rfl, rfl, rfl, rfl, hb0, ?_, ?_⟩
    · intro hpos
      simp [mk_serie, hpos]
    · intro hzero
      simp [mk_serie, hzero]
  · simp only [build_response]
    rw [List.pairwise_map]
    have hs := @List.sorted_mergeSort _
      (fun (a b : String × SVals) => decide (a.1 ≤ b.1))
      (fun a b c hab hbc => by
        simp only [decide_eq_true_eq] at hab hbc ⊢
        exact le_trans hab hbc)
      (fun a b => by
        simp only [Bool.or_eq_true, decide_eq_true_eq]
        exact le_total a.1 b.1)
      st.series_aggr
    refine hs.imp ?_
    intro a b hab
    simpa [mk_serie] using hab

/-- Witness for C1 on the concrete run over `env_w`/`body_w`. -/
theorem claim_C1_witness :
    ∃ st : AggState,
      resp_w.resumen.padre_usado = py_round 4 st.total_usado ∧
      resp_w.resumen.manufacturados = py_round 4 st.total_manuf ∧
      resp_w.resumen.merma = py_round 4 st.total_merma ∧
      0 ≤ st.total_usado ∧
      (0 < st.total_usado →
        resp_w.resumen.rendimiento_ponderado_porcentaje =
          some (py_round 2 (st.total_manuf / st.total_usado * 100))) ∧
      (st.total_usado = 0 →
        resp_w.resumen.rendimiento_ponderado_porcentaje = none) ∧
      (∀ row ∈ resp_w.series, ∃ b ∈ st.series_aggr,
        row.bucket = b.1 ∧
        row.padre_usado = py_round 4 b.2.usado ∧
        row.manufacturados = py_round 4 b.2.manuf ∧
        row.merma = py_round 4 b.2.merma ∧
        0 ≤ b.2.usado ∧
        (0 < b.2.usado → row.rendimiento_porcentaje =
          some (py_round 2 (b.2.manuf / b.2.usado * 100))) ∧
        (b.2.usado = 0 → row.rendimiento_porcentaje = none)) ∧
      resp_w.series.Pairwise (fun r1 r2 => r1.bucket ≤ r2.bucket) :=
  claim_C1 env_w body_w calls_w resp_w service_run_w

/-!  ## Per-product statistics (claim C4) -/

theorem stats_of_nil : stats_of [] = (none, none, none, none) := rfl

theorem stats_of_single (x : ℚ) : (stats_of [x]).2.2.2 = some 0 := by
  simp [stats_of, py_round_r_zero]

theorem stats_of_many (x : ℚ) (xs : List ℚ) (hne : xs ≠ []) :
    (stats_of (x :: xs)).2.2.2 =
      some (py_round_r 2 (Real.sqrt ((sample_variance (x :: xs) : ℚ) : ℝ))) := by
  have hlen : 0 < xs.length := by
    cases xs with
    | nil => exact absurd rfl hne
    | cons y ys => simp
  simp [stats_of, hlen]

/-- Counterexample to C4 as stated: on `env_c4` (one movement with parent
quantity 0, whose yield is therefore undefined) the only `por_producto`
row has `movimientos = 1` but `rendimiento_stddev` is null, not 0. -/
theorem claim_C4_counterexample :
    rendimiento_descomposicion_service env_c4 body_w = (calls_w, .ok (.result resp_c4)) ∧
    resp_c4.por_producto.map (fun r => (r.movimientos, r.rendimiento_stddev)) =
      [(1, none)] ∧
    (none : Option ℝ) ≠ some 0 := by
  refine ⟨service_run_c4, ?_, by simp⟩
  simp [resp_c4, build_response, st_c4, mk_por_producto, stats_of_nil]

/-- C4 (amended): every `por_producto` row reports `movimientos` equal to
the number of movements the product appeared in, of which at most that
many contributed a (defined) yield sample; `rendimiento_stddev` is null
when no yield sample was recorded (possible with `movimientos = 1`, e.g. a
zero-quantity parent), is 0 when exactly one sample was recorded, and for
two or more samples is the sample standard deviation with the unbiased
`n-1` divisor of the recorded movement-level yields, rounded to 2
decimals. -/
theorem claim_C4 (env : Env) (body : Body) (calls : List UpCall) (resp : Response)
    (h : rendimiento_descomposicion_service env body = (calls, .ok (.result resp))) :
    ∃ st : AggState,
      resp.por_producto = st.prod_aggr.map mk_por_producto ∧
      ∀ row ∈ resp.por_producto, ∃ p ∈ st.prod_aggr,
        row = mk_por_producto p ∧
        row.movimientos = p.2.mov ∧
        p.2.rend_list.length ≤ p.2.mov ∧
        (p.2.rend_list = [] → row.rendimiento_stddev = none) ∧
        (p.2.rend_list.length = 1 → row.rendimiento_stddev = some 0) ∧
        (2 ≤ p.2.rend_list.length →
          row.rendimiento_stddev =
            some (py_round_r 2 (Real.sqrt ((sample_variance p.2.rend_list : ℚ) : ℝ)))) := by
  obtain ⟨fi, ff, aid, an, pf, st, hpf, hresp, hinv⟩ :=
    service_ok_inv env body calls resp h
  subst hresp
  obtain ⟨-, -, h3⟩ := hinv
  refine ⟨st, rfl, ?_⟩
  intro row hrow
  simp only [build_response, List.mem_map] at hrow
  obtain ⟨p, hp, rfl⟩ := hrow
  refine ⟨p, hp, rfl, rfl, h3 p hp, ?_, ?_, ?_⟩
  · intro hnil
    simp [mk_por_producto, hnil, stats_of_nil]
  · intro hone
    obtain ⟨x, hx⟩ := List.length_eq_one.mp hone
    simp [mk_por_producto, hx, stats_of_single]
  · intro htwo
    obtain ⟨x, xs, hx⟩ : ∃ x xs, p.2.rend_list = x :: xs := by
      cases hl : p.2.rend_list with
      | nil => rw [hl] at htwo; simp at htwo
      | cons x xs => exact ⟨x, xs, rfl⟩
    have hne : xs ≠ [] := by
      intro hxs
      rw [hx, hxs] at htwo
      simp at htwo
    simp only [mk_por_producto, hx]
    rw [stats_of_many x xs hne]

/-- Witness for C4 on the concrete run over `env_w`/`body_w` (one recorded
yield sample, stddev 0). -/
theorem claim_C4_witness :
    ∃ st : AggState,
      resp_w.por_producto = st.prod_aggr.map mk_por_producto ∧
      ∀ row ∈ resp_w.por_producto, ∃ p ∈ st.prod_aggr,
        row = mk_por_producto p ∧
        row.movimientos = p.2.mov ∧
        p.2.rend_list.length ≤ p.2.mov ∧
        (p.2.rend_list = [] → row.rendimiento_stddev = none) ∧
        (p.2.rend_list.length = 1 → row.rendimiento_stddev = some 0) ∧
        (2 ≤ p.2.rend_list.length →
          row.rendimiento_stddev =
            some (py_round_r 2 (Real.sqrt ((sample_variance p.2.rend_list : ℚ) : ℝ)))) :=
  claim_C4 env_w body_w calls_w resp_w service_run_w

/-!  ## Input validation vs. upstream calls (claim C6) -/

/-- Counterexample to C6 as stated: a request with a malformed
`product_ids` is rejected with a 400 only *after* the area-listing
upstream call has been made, and a request with an invalid date string
dies with an uncaught `ValueError` (a 500, not a 4xx) — likewise after the
area call. -/
theorem claim_C6_counterexample :
    rendimiento_descomposicion_service env_w body_c6 =
      ([.list_areas], .error (.http 400 msg_product_ids)) ∧
    ([UpCall.list_areas] : List UpCall) ≠ [] ∧
    rendimiento_descomposicion_service env_w body_c6d =
      ([.list_areas], .error (.py_error "ValueError: strptime")) ∧
    (∀ code det, (SvcErr.py_error "ValueError: strptime") ≠ .http code det) := by
  exact ⟨rfl, by simp, rfl, by intro code det h; cases h⟩

/-- C6 (amended): with a valid user/session and an explicit area id, a
malformed `product_ids` filter is rejected with `HTTPException(400)` and an
invalid date string aborts with an uncaught `ValueError` (500-style); both
happen after exactly the one area-listing upstream call of area resolution
and before any movement-list or movement-detail call. -/
theorem claim_C6 (env : Env) (body : Body)
    (hu : truthyS body.usuario = true)
    (hctx : env.ctx_ok (body.usuario.getD "") = true)
    (haid : truthyI body.area_id = true) :
    ((parse_date (effective_dates env body).1).isSome = true →
     (parse_date (effective_dates env body).2).isSome = true →
     parse_product_filter body.product_ids = .error () →
     rendimiento_descomposicion_service env body =
       ([.list_areas], .error (.http 400 msg_product_ids))) ∧
    ((parse_date (effective_dates env body).1).isSome = false ∨
     (parse_date (effective_dates env body).2).isSome = false →
     rendimiento_descomposicion_service env body =
       ([.list_areas], .error (.py_error "ValueError: strptime"))) := by
  have hne : body.area_id.getD 0 ≠ 0 := by
    cases haid' : body.area_id with
    | none => rw [haid'] at haid; exact absurd haid (by simp [truthyI])
    | some i =>
      rw [haid'] at haid
      simpa [truthyI] using haid
  constructor
  · intro hp1 hp2 hpf
    obtain ⟨fi, hfi⟩ := Option.isSome_iff_exists.mp hp1
    obtain ⟨ff, hff⟩ := Option.isSome_iff_exists.mp hp2
    simp [rendimiento_descomposicion_service, hu, hctx, haid,
      resolve_area_or_ask, hne, hfi, hff, hpf]
  · intro hbad
    simp only [rendimiento_descomposicion_service, hu, hctx]
    rcases hbad with hbad | hbad
    · obtain hnone : parse_date (effective_dates env body).1 = none :=
        Option.not_isSome_iff_eq_none.mp (by simp [hbad])
      cases hp2 : parse_date (effective_dates env body).2 with
      | none => simp [hu, hctx, haid, resolve_area_or_ask, hne, hnone, hp2]
      | some ff => simp [hu, hctx, haid, resolve_area_or_ask, hne, hnone, hp2]
    · obtain hnone : parse_date (effective_dates env body).2 = none :=
        Option.not_isSome_iff_eq_none.mp (by simp [hbad])
      cases hp1 : parse_date (effective_dates env body).1 with
      | none => simp [hu, hctx, haid, resolve_area_or_ask, hne, hnone, hp1]
      | some fi => simp [hu, hctx, haid, resolve_area_or_ask, hne, hnone, hp1]

/-- Witness for C6 (amended) on the malformed-filter request `body_c6`. -/
theorem claim_C6_witness :
    rendimiento_descomposicion_service env_w body_c6 =
      ([.list_areas], .error (.http 400 msg_product_ids)) :=
  (claim_C6 env_w body_c6 (by decide) rfl (by decide)).1 rfl rfl rfl

/-!  ## Area-name resolution (claim C8) -/

theorem dedup_ranked_src : ∀ (l : List (ℤ × Option String)) (seen : List ℤ)
    (c : CandOption), c ∈ dedup_ranked l seen →
      (c.id, c.label) ∈ l ∧ c.id ∉ seen := by
  intro l
  induction l with
  | nil => intro seen c hc; cases hc
  | cons p rest ih =>
    intro seen c hc
    obtain ⟨i, nm⟩ := p
    by_cases hseen : (seen.contains i) = true
    · simp only [dedup_ranked, if_pos hseen] at hc
      obtain ⟨h1, h2⟩ := ih seen c hc
      exact ⟨List.mem_cons_of_mem _ h1, h2⟩
    · simp only [dedup_ranked, if_neg hseen] at hc
      rcases List.mem_cons.mp hc with rfl | hc'
      · refine ⟨by simp, ?_⟩
        simpa using hseen
      · obtain ⟨h1, h2⟩ := ih (i :: seen) c hc'
        exact ⟨List.mem_cons_of_mem _ h1, fun hs => h2 (List.mem_cons_of_mem _ hs)⟩

theorem dedup_ranked_nodup : ∀ (l : List (ℤ × Option String)) (seen : List ℤ),
    ((dedup_ranked l seen).map CandOption.id).Nodup := by
  intro l
  induction l with
  | nil => intro seen; simp [dedup_ranked]
  | cons p rest ih =>
    intro seen
    obtain ⟨i, nm⟩ := p
    by_cases hseen : (seen.contains i) = true
    · simpa only [dedup_ranked, if_pos hseen] using ih seen
    · simp only [dedup_ranked, if_neg hseen, List.map_cons]
      refine List.nodup_cons.mpr ⟨?_, ih (i :: seen)⟩
      intro hmem
      obtain ⟨c, hc, hcid⟩ := List.mem_map.mp hmem
      exact absurd (List.mem_cons_self i seen)
        (hcid ▸ (dedup_ranked_src rest (i :: seen) c hc).2)

theorem dedup_ranked_mem_id : ∀ (l : List (ℤ × Option String)) (seen : List ℤ)
    (i : ℤ), (∃ c ∈ dedup_ranked l seen, c.id = i) ↔
      i ∉ seen ∧ ∃ p ∈ l, p.1 = i := by
  intro l
  induction l with
  | nil => intro seen i; simp [dedup_ranked]
  | cons p rest ih =>
    intro seen i
    obtain ⟨j, nm⟩ := p
    by_cases hseen : (seen.contains j) = true
    · have hm : j ∈ seen := by simpa using hseen
      rw [show dedup_ranked ((j, nm) :: rest) seen = dedup_ranked rest seen from by
        simp only [dedup_ranked, if_pos hseen]]
      rw [ih seen i]
      constructor
      · rintro ⟨h1, q, hq, hqi⟩
        exact ⟨h1, q, List.mem_cons_of_mem _ hq, hqi⟩
      · rintro ⟨h1, q, hq, hqi⟩
        rcases List.mem_cons.mp hq with rfl | hq'
        · simp only at hqi
          subst hqi
          exact absurd hm h1
        · exact ⟨h1, q, hq', hqi⟩
    · have hm : j ∉ seen := by simpa using hseen
      rw [show dedup_ranked ((j, nm) :: rest) seen =
          ⟨j, nm⟩ :: dedup_ranked rest (j :: seen) from by
        simp only [dedup_ranked, if_neg hseen]]
      constructor
      · rintro ⟨c, hc, hci⟩
        rcases List.mem_cons.mp hc with rfl | hc'
        · simp only at hci
          subst hci
          exact ⟨hm, (j, nm), by simp, rfl⟩
        · obtain ⟨h1, q, hq, hqi⟩ := (ih (j :: seen) i).mp ⟨c, hc', hci⟩
          exact ⟨fun hs => h1 (List.mem_cons_of_mem _ hs),
            q, List.mem_cons_of_mem _ hq, hqi⟩
      · rintro ⟨h1, q, hq, hqi⟩
        rcases List.mem_cons.mp hq with rfl | hq'
        · exact ⟨⟨j, nm⟩, List.mem_cons_self _ _, hqi⟩
        · by_cases hij : i = j
          · exact ⟨⟨j, nm⟩, List.mem_cons_self _ _, hij.symm⟩
          · obtain ⟨c, hc, hci⟩ := (ih (j :: seen) i).mpr
              ⟨fun h => (List.mem_cons.mp h).elim hij h1, q, hq', hqi⟩
            exact ⟨c, List.mem_cons_of_mem _ hc, hci⟩

theorem dedup_ranked_append : ∀ (l1 l2 : List (ℤ × Option String)) (seen : List ℤ),
    ∃ seen', dedup_ranked (l1 ++ l2) seen =
        dedup_ranked l1 seen ++ dedup_ranked l2 seen' ∧
      ∀ i, i ∈ seen' ↔ (i ∈ seen ∨ ∃ p ∈ l1, p.1 = i) := by
  intro l1
  induction l1 with
  | nil =>
    intro l2 seen
    exact ⟨seen, by simp [dedup_ranked], fun i => by simp⟩
  | cons p rest ih =>
    intro l2 seen
    obtain ⟨j, nm⟩ := p
    by_cases hseen : (seen.contains j) = true
    · obtain ⟨seen', h1, h2⟩ := ih l2 seen
      refine ⟨seen', by
        have hm : j ∈ seen := by simpa using hseen
        simp [dedup_ranked, hm, h1], ?_⟩
      intro i
      rw [h2 i]
      constructor
      · rintro (h | ⟨q, hq, hqi⟩)
        · exact Or.inl h
        · exact Or.inr ⟨q, List.mem_cons_of_mem _ hq, hqi⟩
      · rintro (h | ⟨q, hq, hqi⟩)
        · exact Or.inl h
        · rcases List.mem_cons.mp hq with rfl | hq'
          · simp only at hqi
            subst hqi
            exact Or.inl (by simpa using hseen)
          · exact Or.inr ⟨q, hq', hqi⟩
    · obtain ⟨seen', h1, h2⟩ := ih l2 (j :: seen)
      refine ⟨seen', by
        have hm : j ∉ seen := by simpa using hseen
        simp [dedup_ranked, hm, h1], ?_⟩
      intro i
      rw [h2 i]
      constructor
      · rintro (h | ⟨q, hq, hqi⟩)
        · rcases List.mem_cons.mp h with rfl | h'
          · exact Or.inr ⟨(i, nm), by simp, rfl⟩
          · exact Or.inl h'
        · exact Or.inr ⟨q, List.mem_cons_of_mem _ hq, hqi⟩
      · rintro (h | ⟨q, hq, hqi⟩)
        · exact Or.inl (List.mem_cons_of_mem _ h)
        · rcases List.mem_cons.mp hq with rfl | hq'
          · simp only at hqi
            subst hqi
            exact Or.inl (List.mem_cons_self _ _)
          · exact Or.inr ⟨q, hq', hqi⟩

/-- C8: area-name resolution. (1) A unique exact match under normalization
(lowercase, accent-stripped, whitespace-collapsed) resolves directly to that
area id and name. (2) The ranked candidate list is deduplicated by id.
(3) An id is ranked iff some area of that id matches the normalized query by
prefix or (for a truthy query) by substring. (4) Prefix matches come before
substring-only matches. (5) With no exact match: a single ranked candidate is
auto-selected, none at all is a not-found outcome, two or more leave the full
ranked list as candidates. (6) At the resolver: a match gives a direct
resolution, no match raises HTTP 400 not-found, several candidates give the
disambiguation payload listing the (first 10) candidates. (7) The scenario:
one area "Almacén Central", query "almacén   central" (accent, extra spaces)
resolves directly to it with no disambiguation. -/
theorem claim_C8 (areas : List AreaRec) (nombre : String) (a : AreaRec)
    (i : ℤ) (ma : Bool) :
    (exact_matches areas nombre = [a] →
      find_area_candidates areas nombre = (some ⟨a.id, a.name⟩, [])) ∧
    ((ranked_of areas nombre).map CandOption.id).Nodup ∧
    ((∃ c ∈ ranked_of areas nombre, c.id = i) ↔
      ∃ b ∈ areas, b.id = i ∧
        ((norm_text nombre).isPrefixOf (norm_opt b.name)
          || (!(norm_text nombre).isEmpty
              && decide (norm_text nombre <:+: norm_opt b.name))) = true) ∧
    (∃ pre post, ranked_of areas nombre = pre ++ post ∧
      (∀ c ∈ pre, c.id ∈ (starts_matches areas nombre).map AreaRec.id) ∧
      (∀ c ∈ post, c.id ∈ (contains_matches areas nombre).map AreaRec.id)) ∧
    (exact_matches areas nombre = [] →
      (∀ solo, ranked_of areas nombre = [solo] →
        find_area_candidates areas nombre = (some ⟨solo.id, solo.label⟩, [])) ∧
      (ranked_of areas nombre = [] → find_area_candidates areas nombre = (none, [])) ∧
      (2 ≤ (ranked_of areas nombre).length →
        find_area_candidates areas nombre = (none, ranked_of areas nombre))) ∧
    (nombre ≠ "" →
      (∀ m cs, find_area_candidates areas nombre = (some m, cs) →
        resolve_area_or_ask areas none (some nombre) ma = .ok (.resolved m.id m.name)) ∧
      (find_area_candidates areas nombre = (none, []) →
        resolve_area_or_ask areas none (some nombre) ma =
          .error (400, msg_area_not_found nombre)) ∧
      (∀ c cs, find_area_candidates areas nombre = (none, c :: cs) →
        resolve_area_or_ask areas none (some nombre) ma =
          .ok (.ask { prompt := prompt_ambiguous nombre
                    , options := (c :: cs).take 10 }))) ∧
    resolve_area_or_ask [⟨7, some "Almacén Central"⟩] none
      (some "almacén   central") false = .ok (.resolved 7 (some "Almacén Central")) := by
  refine ⟨?_, ?_, ?_, ?_, ?_, ?_, ?_⟩
  · intro h
    simp only [find_area_candidates, h]
  · exact dedup_ranked_nodup _ _
  · rw [show ranked_of areas nombre = dedup_ranked
        ((starts_matches areas nombre ++ contains_matches areas nombre).map
          (fun b => (b.id, b.name))) [] from rfl,
      dedup_ranked_mem_id]
    constructor
    · rintro ⟨-, p, hp, hpi⟩
      obtain ⟨b, hb, rfl⟩ := List.mem_map.mp hp
      rcases List.mem_append.mp hb with hb1 | hb1
      · obtain ⟨hmem, hf⟩ := List.mem_filter.mp hb1
        exact ⟨b, hmem, hpi, by rw [Bool.or_eq_true]; exact Or.inl hf⟩
      · obtain ⟨hmem, hg⟩ := List.mem_filter.mp hb1
        exact ⟨b, hmem, hpi, by rw [Bool.or_eq_true]; exact Or.inr hg⟩
    · rintro ⟨b, hb, hbi, hfg⟩
      refine ⟨List.not_mem_nil i, (b.id, b.name), ?_, hbi⟩
      rw [Bool.or_eq_true] at hfg
      rcases hfg with hf | hg
      · exact List.mem_map.mpr ⟨b, List.mem_append.mpr
          (Or.inl (List.mem_filter.mpr ⟨hb, hf⟩)), rfl⟩
      · exact List.mem_map.mpr ⟨b, List.mem_append.mpr
          (Or.inr (List.mem_filter.mpr ⟨hb, hg⟩)), rfl⟩
  · obtain ⟨seen2, happ, -⟩ := dedup_ranked_append
      ((starts_matches areas nombre).map (fun b => (b.id, b.name)))
      ((contains_matches areas nombre).map (fun b => (b.id, b.name))) []
    refine ⟨dedup_ranked ((starts_matches areas nombre).map (fun b => (b.id, b.name))) [],
      dedup_ranked ((contains_matches areas nombre).map (fun b => (b.id, b.name))) seen2,
      ?_, ?_, ?_⟩
    · rw [show ranked_of areas nombre = dedup_ranked
          ((starts_matches areas nombre).map (fun b => (b.id, b.name)) ++
           (contains_matches areas nombre).map (fun b => (b.id, b.name))) [] from by
        simp [ranked_of, List.map_append]]
      exact happ
    · intro c hc
      obtain ⟨hmem, -⟩ := dedup_ranked_src _ _ c hc
      obtain ⟨b, hb, hbe⟩ := List.mem_map.mp hmem
      exact List.mem_map.mpr ⟨b, hb, congrArg Prod.fst hbe⟩
    · intro c hc
      obtain ⟨hmem, -⟩ := dedup_ranked_src _ _ c hc
      obtain ⟨b, hb, hbe⟩ := List.mem_map.mp hmem
      exact List.mem_map.mpr ⟨b, hb, congrArg Prod.fst hbe⟩
  · intro hex
    refine ⟨?_, ?_, ?_⟩
    · intro solo h1
      simp only [find_area_candidates, hex, h1]
    · intro h0
      simp only [find_area_candidates, hex, h0]
    · intro hlen
      rcases hr : ranked_of areas nombre with _ | ⟨c1, _ | ⟨c2, rest⟩⟩
      · rw [hr] at hlen
        simp at hlen
      · rw [hr] at hlen
        simp at hlen
      · simp only [find_area_candidates, hex, hr]
  · intro hne
    have ht : truthyS (some nombre) = true := by
      simp [truthyS, hne]
    refine ⟨?_, ?_, ?_⟩
    · intro m cs hfind
      simp [resolve_area_or_ask, truthyI, ht, hfind]
    · intro hfind
      simp [resolve_area_or_ask, truthyI, ht, hfind, msg_area_not_found]
    · intro c cs hfind
      simp [resolve_area_or_ask, truthyI, ht, hfind, prompt_ambiguous]
  · rfl

/-- C8 witness: the accent/whitespace scenario resolves directly, and the
normalized query is a unique exact match there. -/
theorem claim_C8_witness :
    resolve_area_or_ask [⟨7, some "Almacén Central"⟩] none
        (some "almacén   central") false
      = .ok (.resolved 7 (some "Almacén Central")) ∧
    find_area_candidates [⟨7, some "Almacén Central"⟩] "almacén   central" =
      (some ⟨7, some "Almacén Central"⟩, []) :=
  ⟨(claim_C8 [⟨7, some "Almacén Central"⟩] "almacén   central"
      ⟨7, some "Almacén Central"⟩ 7 false).2.2.2.2.2.2,
   (claim_C8 [⟨7, some "Almacén Central"⟩] "almacén   central"
      ⟨7, some "Almacén Central"⟩ 7 false).1 (by decide)⟩

end Teco
